import Mathlib

/-!
# ddkube: the Hostname reconciler

A shallow embedding of `internal/controller/hostname_controller.go`
(`Reconcile`, `ddflareFQDNUpdate`), of the API types of
`api/v1beta1/hostname_types.go` and of the generated copy functions of
`api/v1beta1/zz_generated.deepcopy.go`.

Modelling conventions.

* Go pointers whose target is written by the controller (`*LastUpdateData`,
  `*metav1.Time`) are addresses into an explicit `Heap`; `none` is the nil
  pointer.  Pointers whose target is only read (`*int32`, `*DDNSServiceData`,
  `*corev1.ObjectReference`) are `Option` values.
* Dereferencing nil is the outcome `Outcome.fault` (a Go run-time panic).
* The collaborators that live outside the repository (object store, secret
  store, public IP detection, the ddflare DNS manager, the clock) are the
  fields of a `World`; every call made to one of them is appended, with its
  result, to a chronological trace of `Event`s.  Calls into these libraries
  are taken to return normally, except that a method called on a nil
  `*ddflare.DNSManager` dereferences it.
* A Go result pair `(v, err)` is an `Except Err _`; a lone `error` is an
  `Option Err` (`none` is the nil error).  A constructor that reports an
  error returns the nil pointer.
* `int32` and `int64` are `Int`; the `int64` product of `time.Duration` wraps
  through `wrapInt64`.
-/

namespace DDKube

deriving instance DecidableEq for Except

/-! ## Data model (`api/v1beta1/hostname_types.go`) -/

/-- Go `error` values.  `notFound` are the errors for which
`apierrors.IsNotFound` holds. -/
inductive Err where
  | notFound (msg : String)
  | other (msg : String)
  deriving DecidableEq, Repr

/-- The function `client.IgnoreNotFound` on a non-nil error: nil on a not-found
error, the error itself otherwise. -/
def IgnoreNotFound : Err → Option Err
  | .notFound _ => none
  | .other msg => some (.other msg)

/-- The type `types.NamespacedName`. -/
structure NamespacedName where
  Namespace : String
  Name : String
  deriving DecidableEq, Repr

/-- The fields of `corev1.ObjectReference` the controller reads. -/
structure ObjectReference where
  Name : String
  Namespace : String
  deriving DecidableEq, Repr

/-- The type `DDNSServiceData`. -/
structure DDNSServiceData where
  AuthSecretRef : Option ObjectReference
  Endpoint : String
  deriving DecidableEq, Repr

/-- The type `HostnameSpec`; `CheckIntervalMinutes` is a `*int32`. -/
structure HostnameSpec where
  Hostname : String
  Address : String
  CheckIntervalMinutes : Option Int
  DDNSService : Option DDNSServiceData
  deriving DecidableEq, Repr

/-- Heap addresses. -/
abbrev Ptr := Nat

/-- The type `metav1.Time`: a wrapper around one `time.Time`. -/
structure MetaTime where
  Time : Nat
  deriving DecidableEq, Repr

/-- The type `LastUpdateData`; `ScheduledAt` is a `*metav1.Time`. -/
structure LastUpdateData where
  ScheduledAt : Option Ptr
  Failed : Bool
  Hostname : String
  Address : String
  deriving DecidableEq, Repr

/-- The type `HostnameStatus`; `LastUpdate` is a `*LastUpdateData`. -/
structure HostnameStatus where
  Conditions : List String
  LastUpdate : Option Ptr
  deriving DecidableEq, Repr

/-- The type `metav1.TypeMeta`. -/
structure TypeMeta where
  Kind : String
  APIVersion : String
  deriving DecidableEq, Repr

/-- The fields of `metav1.ObjectMeta` that identify the object. -/
structure ObjectMeta where
  Name : String
  Namespace : String
  deriving DecidableEq, Repr

/-- The type `Hostname`. -/
structure Hostname where
  TypeMeta : TypeMeta
  ObjectMeta : ObjectMeta
  Spec : HostnameSpec
  Status : HostnameStatus
  deriving DecidableEq, Repr

/-- The memory the pointers of a `Hostname` point into. -/
structure Heap where
  lastUpdate : Ptr → LastUpdateData
  time : Ptr → MetaTime

/-- The content of `Status.LastUpdate` with its pointers followed: what a
serialisation of the object shows. -/
structure LastUpdateView where
  ScheduledAt : Option Nat
  Failed : Bool
  Hostname : String
  Address : String
  deriving DecidableEq, Repr

/-- Follow `h.Status.LastUpdate` (and its `ScheduledAt`) in the heap `σ`. -/
def Heap.view (σ : Heap) (h : Hostname) : Option LastUpdateView :=
  h.Status.LastUpdate.map fun p =>
    { ScheduledAt := (σ.lastUpdate p).ScheduledAt.map fun q => (σ.time q).Time
      Failed := (σ.lastUpdate p).Failed
      Hostname := (σ.lastUpdate p).Hostname
      Address := (σ.lastUpdate p).Address }

/-- The store `p.Time = t` through a `*metav1.Time`. -/
def Heap.setTime (σ : Heap) (p : Ptr) (t : Nat) : Heap :=
  { σ with time := Function.update σ.time p { Time := t } }

/-- The store `p.Address = a` through a `*LastUpdateData`. -/
def Heap.setAddress (σ : Heap) (p : Ptr) (a : String) : Heap :=
  { σ with lastUpdate := Function.update σ.lastUpdate p { σ.lastUpdate p with Address := a } }

/-- The store `p.Hostname = n` through a `*LastUpdateData`. -/
def Heap.setHostname (σ : Heap) (p : Ptr) (n : String) : Heap :=
  { σ with lastUpdate := Function.update σ.lastUpdate p { σ.lastUpdate p with Hostname := n } }

/-- The store `p.Failed = b` through a `*LastUpdateData`. -/
def Heap.setFailed (σ : Heap) (p : Ptr) (b : Bool) : Heap :=
  { σ with lastUpdate := Function.update σ.lastUpdate p { σ.lastUpdate p with Failed := b } }

/-! ## Generated copies (`api/v1beta1/zz_generated.deepcopy.go`) -/

/-- The zero value `new(Hostname)` points to. -/
def Hostname.zero : Hostname :=
  { TypeMeta := { Kind := "", APIVersion := "" }
    ObjectMeta := { Name := "", Namespace := "" }
    Spec := { Hostname := "", Address := "", CheckIntervalMinutes := none, DDNSService := none }
    Status := { Conditions := [], LastUpdate := none } }

/-- The method `ObjectMeta.DeepCopyInto` of apimachinery, on the fields kept
here (plain strings). -/
def ObjectMeta.DeepCopyInto (src _dst : ObjectMeta) : ObjectMeta :=
  { Name := src.Name, Namespace := src.Namespace }

/-- The method `(*HostnameSpec).DeepCopyInto`: `*out = *in`. -/
def HostnameSpec.DeepCopyInto (src _dst : HostnameSpec) : HostnameSpec :=
  src

/-- The method `(*HostnameStatus).DeepCopyInto`: `*out = *in`.  The struct
assignment copies the `LastUpdate` pointer, not what it points to. -/
def HostnameStatus.DeepCopyInto (src _dst : HostnameStatus) : HostnameStatus :=
  src

/-- The method `(*Hostname).DeepCopyInto`: the struct assignment `*out = *in`
followed by the four field assignments. -/
def Hostname.DeepCopyInto (src dst : Hostname) : Hostname :=
  let out := src
  let out := { out with TypeMeta := src.TypeMeta }
  let out := { out with ObjectMeta := src.ObjectMeta.DeepCopyInto dst.ObjectMeta }
  let out := { out with Spec := src.Spec }
  let out := { out with Status := src.Status }
  out

/-- The method `(*Hostname).DeepCopy` on a non-nil receiver:
`out := new(Hostname); in.DeepCopyInto(out); return out`. -/
def Hostname.DeepCopy (src : Hostname) : Hostname :=
  src.DeepCopyInto Hostname.zero

/-! ## Collaborators -/

/-- The field `Data` of `corev1.Secret`, a map from key to bytes. -/
structure Secret where
  Data : List (String × String)
  deriving DecidableEq, Repr

/-- The manager kinds of the ddflare library. -/
inductive DNSManagerType where
  | Cloudflare
  | Dyn
  | NoIP
  | DDNS
  deriving DecidableEq, Repr

/-- A `*ddflare.DNSManager`: the strategy it was built for and the API
endpoint set on it, if any. -/
structure DNSManager where
  kind : DNSManagerType
  apiEndpoint : Option String
  deriving DecidableEq, Repr

/-- The method `(*DNSManager).SetApiEndpoint`. -/
def DNSManager.SetApiEndpoint (dm : DNSManager) (ep : String) : DNSManager :=
  { dm with apiEndpoint := some ep }

/-- The results of the calls that leave the repository. -/
structure World where
  GetHostname : NamespacedName → Except Err Hostname
  GetSecret : NamespacedName → Except Err Secret
  GetPublicIP : Except Err String
  Now : Nat
  NewDNSManager : DNSManagerType → Option Err
  Init : DNSManager → String → Option Err
  IsFQDNUpToDate : DNSManager → String → String → Except Err Bool
  Update : DNSManager → String → String → Option Err
  StatusPatch : Option LastUpdateView → Option LastUpdateView → Option Err

/-- One call that left the repository, with its arguments and its result. -/
inductive Event where
  | GetHostname (key : NamespacedName) (res : Except Err Hostname)
  | GetSecret (key : NamespacedName) (res : Except Err Secret)
  | GetPublicIP (res : Except Err String)
  | NewDNSManager (kind : DNSManagerType) (err : Option Err)
  | SetApiEndpoint (dm : DNSManager) (ep : String)
  | Init (dm : DNSManager) (authToken : String) (err : Option Err)
  | IsFQDNUpToDate (dm : DNSManager) (fqdn ip : String) (res : Except Err Bool)
  | Update (dm : DNSManager) (fqdn ip : String) (err : Option Err)
  | StatusPatch (modified original : Option LastUpdateView) (err : Option Err)
  deriving DecidableEq

/-- Is the event a call of the provider adapter (construction, override,
`Init`, `IsFQDNUpToDate`, `Update`)? -/
def Event.isProvider : Event → Bool
  | .NewDNSManager _ _ => true
  | .SetApiEndpoint _ _ => true
  | .Init _ _ _ => true
  | .IsFQDNUpToDate _ _ _ _ => true
  | .Update _ _ _ _ => true
  | _ => false

/-- Is the event a call of `Init`? -/
def Event.isInit : Event → Bool
  | .Init _ _ _ => true
  | _ => false

/-- Is the event a call of `IsFQDNUpToDate`? -/
def Event.isIsFQDNUpToDate : Event → Bool
  | .IsFQDNUpToDate _ _ _ _ => true
  | _ => false

/-- Is the event a call of `Update`? -/
def Event.isUpdate : Event → Bool
  | .Update _ _ _ _ => true
  | _ => false

/-- Is the event a call of `SetApiEndpoint`? -/
def Event.isSetApiEndpoint : Event → Bool
  | .SetApiEndpoint _ _ => true
  | _ => false

/-- Is the event the status patch? -/
def Event.isStatusPatch : Event → Bool
  | .StatusPatch _ _ _ => true
  | _ => false

/-! ## The controller (`internal/controller/hostname_controller.go`) -/

/-- The constant `Cloudflare`. -/
def Cloudflare : String := "Cloudflare"

/-- The constant `Dyn`. -/
def Dyn : String := "Dyn"

/-- The constant `NoIP`. -/
def NoIP : String := "NoIP"

/-- The constant `DDNS`. -/
def DDNS : String := "DDNS"

/-- Wrap an integer into the range of `int64`. -/
def wrapInt64 (x : Int) : Int :=
  (x + 2 ^ 63) % 2 ^ 64 - 2 ^ 63

/-- The constant `time.Minute`, in nanoseconds. -/
def Minute : Int := 60 * 1000000000

/-- The type `ctrl.Result`; `RequeueAfter` is a `time.Duration` (nanoseconds). -/
structure Result where
  Requeue : Bool := false
  RequeueAfter : Int := 0
  deriving DecidableEq, Repr

/-- How a call of `Reconcile` ends: it returns `(ctrl.Result, error)`, or it
dereferences a nil pointer. -/
inductive Outcome where
  | returned (res : Result) (err : Option Err)
  | fault
  deriving DecidableEq, Repr

/-- A finished call of `Reconcile`: how it ended, the heap it left and the
calls it made, oldest first. -/
structure Run where
  outcome : Outcome
  heap : Heap
  trace : List Event

/-- How a call of `ddflareFQDNUpdate` ends: it returns an `error`, or it
dereferences a nil pointer. -/
inductive CallResult where
  | returned (err : Option Err)
  | fault
  deriving DecidableEq, Repr

/-- The call `ddflare.NewDNSManager(kind)`: the manager pointer, nil when the
construction reports an error, and the error. -/
def NewDNSManager (w : World) (kind : DNSManagerType) : Option DNSManager × Option Err :=
  match w.NewDNSManager kind with
  | some err => (none, some err)
  | none => (some { kind := kind, apiEndpoint := none }, none)

/-- The function `ddflareFQDNUpdate`: how it ends and the calls it made.

`sel` is the `switch`: the values of `dm` and `err` after it, or `none` when
the `default` branch called `SetApiEndpoint` on a nil `dm`, and the calls
made so far. -/
def ddflareFQDNUpdate (w : World) (ep authToken fqdn ip : String) : CallResult × List Event :=
  let sel : Option (Option DNSManager × Option Err) × List Event :=
    if ep = Cloudflare then
      (some (NewDNSManager w .Cloudflare),
        [Event.NewDNSManager .Cloudflare (w.NewDNSManager .Cloudflare)])
    else if ep = Dyn then
      (some (NewDNSManager w .Dyn), [Event.NewDNSManager .Dyn (w.NewDNSManager .Dyn)])
    else if ep = NoIP then
      (some (NewDNSManager w .NoIP), [Event.NewDNSManager .NoIP (w.NewDNSManager .NoIP)])
    else if ep = DDNS then
      (some (NewDNSManager w .DDNS), [Event.NewDNSManager .DDNS (w.NewDNSManager .DDNS)])
    else
      match (NewDNSManager w .Dyn).1 with
      | none => (none, [Event.NewDNSManager .Dyn (w.NewDNSManager .Dyn)])
      | some dm =>
        (some (some (dm.SetApiEndpoint ep), (NewDNSManager w .Dyn).2),
          [Event.NewDNSManager .Dyn (w.NewDNSManager .Dyn), Event.SetApiEndpoint dm ep])
  match sel.1 with
  | none => (.fault, sel.2)
  | some (_, some err) => (.returned (some err), sel.2)
  | some (none, none) => (.fault, sel.2)
  | some (some dm, none) =>
    match w.Init dm authToken with
    | some err => (.returned (some err), sel.2 ++ [Event.Init dm authToken (some err)])
    | none =>
      match w.IsFQDNUpToDate dm fqdn ip with
      | .error err =>
        (.returned (some err), sel.2 ++ [Event.Init dm authToken none,
          Event.IsFQDNUpToDate dm fqdn ip (.error err)])
      | .ok true =>
        (.returned none, sel.2 ++ [Event.Init dm authToken none,
          Event.IsFQDNUpToDate dm fqdn ip (.ok true)])
      | .ok false =>
        match w.Update dm fqdn ip with
        | some err =>
          (.returned (some err), sel.2 ++ [Event.Init dm authToken none,
            Event.IsFQDNUpToDate dm fqdn ip (.ok false),
            Event.Update dm fqdn ip (some err)])
        | none =>
          (.returned none, sel.2 ++ [Event.Init dm authToken none,
            Event.IsFQDNUpToDate dm fqdn ip (.ok false),
            Event.Update dm fqdn ip none])

/-- The method `(*HostnameReconciler).Reconcile`, run on the heap `σ` that
holds what the fetched object points to. -/
def Reconcile (w : World) (σ : Heap) (req : NamespacedName) : Run :=
  match w.GetHostname req with
  | .error err =>
    ⟨.returned {} (IgnoreNotFound err), σ, [Event.GetHostname req (.error err)]⟩
  | .ok hostname =>
    let snapshot := hostname.DeepCopy
    let t₁ := [Event.GetHostname req (.ok hostname)]
    match hostname.Spec.DDNSService with
    | none => ⟨.fault, σ, t₁⟩
    | some svc =>
    match svc.AuthSecretRef with
    | none => ⟨.fault, σ, t₁⟩
    | some ref =>
    match w.GetSecret ⟨ref.Namespace, ref.Name⟩ with
    | .error err =>
      ⟨.returned {} (some err), σ,
        t₁ ++ [Event.GetSecret ⟨ref.Namespace, ref.Name⟩ (.error err)]⟩
    | .ok authSecret =>
    let t₂ := t₁ ++ [Event.GetSecret ⟨ref.Namespace, ref.Name⟩ (.ok authSecret)]
    match authSecret.Data.lookup "authToken" with
    | none => ⟨.returned {} (some (.other "\x27authToken\x27 not found")), σ, t₂⟩
    | some authToken =>
    let addr : Except Err String × List Event :=
      if hostname.Spec.Address = "" then (w.GetPublicIP, [Event.GetPublicIP w.GetPublicIP])
      else (.ok hostname.Spec.Address, [])
    match addr.1 with
    | .error err => ⟨.returned {} (some err), σ, t₂ ++ addr.2⟩
    | .ok address =>
    let t₃ := t₂ ++ addr.2
    match hostname.Status.LastUpdate with
    | none => ⟨.fault, σ, t₃⟩
    | some lastUpdate =>
    match (σ.lastUpdate lastUpdate).ScheduledAt with
    | none => ⟨.fault, σ, t₃⟩
    | some scheduledAt =>
    let σ₁ := σ.setTime scheduledAt w.Now
    let σ₂ := σ₁.setAddress lastUpdate address
    let σ₃ := σ₂.setHostname lastUpdate hostname.Spec.Hostname
    let upd := ddflareFQDNUpdate w svc.Endpoint authToken hostname.Spec.Hostname address
    match upd.1 with
    | .fault => ⟨.fault, σ₃, t₃ ++ upd.2⟩
    | .returned uerr =>
    let σ₄ := match uerr with
      | some _ => σ₃.setFailed lastUpdate true
      | none => σ₃
    let perr := w.StatusPatch (σ₄.view hostname) (σ₄.view snapshot)
    let t₄ := t₃ ++ upd.2 ++ [Event.StatusPatch (σ₄.view hostname) (σ₄.view snapshot) perr]
    match perr with
    | some err => ⟨.returned {} (some err), σ₄, t₄⟩
    | none =>
    match hostname.Spec.CheckIntervalMinutes with
    | none => ⟨.fault, σ₄, t₄⟩
    | some checkIntervalMinutes =>
      if checkIntervalMinutes = 0 then
        ⟨.returned { Requeue := false } none, σ₄, t₄⟩
      else
        ⟨.returned { RequeueAfter := wrapInt64 (checkIntervalMinutes * Minute) } none, σ₄, t₄⟩

/-! ## Predicates used by the statements -/

/-- Is the event a call of `Init`, `IsFQDNUpToDate` or `Update` made on the
manager `dm`? -/
def Event.onManager (dm : DNSManager) : Event → Bool
  | .Init d _ _ => decide (d = dm)
  | .IsFQDNUpToDate d _ _ _ => decide (d = dm)
  | .Update d _ _ _ => decide (d = dm)
  | _ => false

/-- The heap a pass hands to the status patch: `σ` after the stores of lines
104 to 106 through `Status.LastUpdate = p` and its `ScheduledAt = q`, and
after the store `Failed = true` of line 112 when the provider adapter
returned an error. -/
def Heap.written (σ : Heap) (p q : Ptr) (now : Nat) (address hostname : String)
    (uerr : Option Err) : Heap :=
  match uerr with
  | some _ => (((σ.setTime q now).setAddress p address).setHostname p hostname).setFailed p true
  | none => ((σ.setTime q now).setAddress p address).setHostname p hostname

/-- The pass found the resource `h`, read the secret and its `authToken`, and
resolved the address; `pre` are the calls made up to that point. -/
def Resolved (w : World) (req : NamespacedName) (h : Hostname) (svc : DDNSServiceData)
    (token address : String) (pre : List Event) : Prop :=
  w.GetHostname req = .ok h ∧ h.Spec.DDNSService = some svc ∧
  ∃ ref secret, svc.AuthSecretRef = some ref ∧
    w.GetSecret ⟨ref.Namespace, ref.Name⟩ = .ok secret ∧
    secret.Data.lookup "authToken" = some token ∧
    ((h.Spec.Address ≠ "" ∧ address = h.Spec.Address ∧
        pre = [Event.GetHostname req (.ok h),
          Event.GetSecret ⟨ref.Namespace, ref.Name⟩ (.ok secret)]) ∨
      (h.Spec.Address = "" ∧ w.GetPublicIP = .ok address ∧
        pre = [Event.GetHostname req (.ok h),
          Event.GetSecret ⟨ref.Namespace, ref.Name⟩ (.ok secret),
          Event.GetPublicIP (.ok address)]))

/-! ## Concrete inputs -/

/-- A request for the resource `default/home`. -/
def exampleRequest : NamespacedName := ⟨"default", "home"⟩

/-- A resource that asks for `home.example.com` at the detected public
address every 5 minutes through Cloudflare, and that was reconciled before. -/
def exampleHostname : Hostname :=
  { TypeMeta := ⟨"Hostname", "ddkube.foggy.day/v1beta1"⟩
    ObjectMeta := ⟨"home", "default"⟩
    Spec :=
      { Hostname := "home.example.com"
        Address := ""
        CheckIntervalMinutes := some 5
        DDNSService := some { AuthSecretRef := some ⟨"ddns-auth", "default"⟩, Endpoint := "Cloudflare" } }
    Status := { Conditions := [], LastUpdate := some 0 } }

/-- A heap in which the previous pass recorded a failed update of
`old.example.com`. -/
def exampleHeap : Heap :=
  { lastUpdate := fun _ =>
      { ScheduledAt := some 0, Failed := true, Hostname := "old.example.com", Address := "198.51.100.1" }
    time := fun _ => { Time := 7 } }

/-- A heap in which the `LastUpdate` structure exists but its `ScheduledAt`
pointer is nil. -/
def unscheduledHeap : Heap :=
  { lastUpdate := fun _ => { ScheduledAt := none, Failed := false, Hostname := "", Address := "" }
    time := fun _ => { Time := 0 } }

/-- A world in which every call succeeds; the record is out of date and the
update goes through. -/
def exampleWorld : World :=
  { GetHostname := fun _ => .ok exampleHostname
    GetSecret := fun _ => .ok { Data := [("authToken", "s3cret")] }
    GetPublicIP := .ok "203.0.113.7"
    Now := 1000
    NewDNSManager := fun _ => none
    Init := fun _ _ => none
    IsFQDNUpToDate := fun _ _ _ => .ok false
    Update := fun _ _ _ => none
    StatusPatch := fun _ _ => none }

/-- The world `exampleWorld` serving the resource `h`. -/
def worldServing (h : Hostname) : World :=
  { exampleWorld with GetHostname := fun _ => .ok h }

/-- A brand-new resource: the `exampleHostname` with no `Status.LastUpdate`. -/
def newHostname : Hostname :=
  { exampleHostname with Status := { Conditions := [], LastUpdate := none } }

/-- A brand-new resource with an explicit address. -/
def newHostnameWithAddress : Hostname :=
  { newHostname with Spec := { newHostname.Spec with Address := "192.0.2.10" } }

/-- The `exampleHostname` with no `CheckIntervalMinutes`. -/
def hostnameWithoutInterval : Hostname :=
  { exampleHostname with Spec := { exampleHostname.Spec with CheckIntervalMinutes := none } }

/-- The `exampleHostname` with an interval of 153722868 minutes. -/
def hostnameWithHugeInterval : Hostname :=
  { exampleHostname with Spec := { exampleHostname.Spec with CheckIntervalMinutes := some 153722868 } }

/-- A world in which the secret cannot be read. -/
def worldWithoutSecret : World :=
  { exampleWorld with GetSecret := fun _ => .error (.notFound "secret ddns-auth not found") }

/-- A world in which the provider rejects the update. -/
def worldWithFailingUpdate : World :=
  { exampleWorld with Update := fun _ _ _ => some (.other "update rejected") }

/-- The `exampleHostname` with a custom API endpoint as provider. -/
def customEndpointHostname : Hostname :=
  { exampleHostname with
    Spec := { exampleHostname.Spec with
      DDNSService := some
        { AuthSecretRef := some ⟨"ddns-auth", "default"⟩
          Endpoint := "https://ddns.example.net/nic/update" } } }

/-- A world in which the construction of a DNS manager reports an error. -/
def worldWithFailingConstructor : World :=
  { exampleWorld with NewDNSManager := fun _ => some (.other "unknown DNS manager") }

/-- A world in which the initial fetch fails with an error other than
not-found. -/
def worldWithFailingFetch : World :=
  { exampleWorld with GetHostname := fun _ => .error (.other "connection refused") }

/-- A world in which the status patch is rejected. -/
def worldWithFailingPatch : World :=
  { exampleWorld with StatusPatch := fun _ _ => some (.other "conflict") }

/-! ## The provider adapter: `ddflareFQDNUpdate` -/

/-- Every call `ddflareFQDNUpdate` makes is a call of the provider adapter. -/
theorem ddflareFQDNUpdate_trace_isProvider (w : World) (ep authToken fqdn ip : String) :
    ∀ e ∈ (ddflareFQDNUpdate w ep authToken fqdn ip).2, e.isProvider = true := by
  unfold ddflareFQDNUpdate NewDNSManager
  simp only []
  split_ifs <;> (repeat' split) <;> simp_all [Event.isProvider]

/-- The runs of `ddflareFQDNUpdate`: either the endpoint is a custom one and
the construction failed, and the call faults; or a selection step (one of the
four built-in kinds, or `Dyn` with the endpoint set) is followed by one of the
five ways the protocol can end. -/
theorem ddflareFQDNUpdate_shape (w : World) (ep authToken fqdn ip : String) :
    (∃ e, (ep ≠ Cloudflare ∧ ep ≠ Dyn ∧ ep ≠ NoIP ∧ ep ≠ DDNS) ∧
        w.NewDNSManager .Dyn = some e ∧
        ddflareFQDNUpdate w ep authToken fqdn ip =
          (.fault, [Event.NewDNSManager .Dyn (some e)])) ∨
    ∃ (dm : DNSManager) (cerr : Option Err) (pre : List Event),
      ((∃ k, ((ep = Cloudflare ∧ k = .Cloudflare) ∨ (ep = Dyn ∧ k = .Dyn) ∨
            (ep = NoIP ∧ k = .NoIP) ∨ (ep = DDNS ∧ k = .DDNS)) ∧
          dm = ⟨k, none⟩ ∧ cerr = w.NewDNSManager k ∧ pre = [Event.NewDNSManager k cerr]) ∨
        ((ep ≠ Cloudflare ∧ ep ≠ Dyn ∧ ep ≠ NoIP ∧ ep ≠ DDNS) ∧
          dm = ⟨.Dyn, some ep⟩ ∧ cerr = none ∧ w.NewDNSManager .Dyn = none ∧
          pre = [Event.NewDNSManager .Dyn none, Event.SetApiEndpoint ⟨.Dyn, none⟩ ep])) ∧
      ((∃ e, cerr = some e ∧
          ddflareFQDNUpdate w ep authToken fqdn ip = (.returned (some e), pre)) ∨
        (cerr = none ∧ ∃ e, ddflareFQDNUpdate w ep authToken fqdn ip =
          (.returned (some e), pre ++ [Event.Init dm authToken (some e)])) ∨
        (cerr = none ∧ ∃ e, ddflareFQDNUpdate w ep authToken fqdn ip =
          (.returned (some e), pre ++ [Event.Init dm authToken none,
            Event.IsFQDNUpToDate dm fqdn ip (.error e)])) ∨
        (cerr = none ∧ ddflareFQDNUpdate w ep authToken fqdn ip =
          (.returned none, pre ++ [Event.Init dm authToken none,
            Event.IsFQDNUpToDate dm fqdn ip (.ok true)])) ∨
        (cerr = none ∧ ∃ r, ddflareFQDNUpdate w ep authToken fqdn ip =
          (.returned r, pre ++ [Event.Init dm authToken none,
            Event.IsFQDNUpToDate dm fqdn ip (.ok false), Event.Update dm fqdn ip r]))) := by
  generalize hr : ddflareFQDNUpdate w ep authToken fqdn ip = r
  unfold ddflareFQDNUpdate NewDNSManager at hr
  simp only [] at hr
  split_ifs at hr with h1 h2 h3 h4
  · right
    refine ⟨_, _, _, Or.inl ⟨.Cloudflare, Or.inl ⟨h1, rfl⟩, rfl, rfl, rfl⟩, ?_⟩
    cases hc : w.NewDNSManager .Cloudflare <;> simp only [hc] at hr <;>
      (repeat' split at hr) <;> (subst hr; simp_all)
  · right
    refine ⟨_, _, _, Or.inl ⟨.Dyn, Or.inr (Or.inl ⟨h2, rfl⟩), rfl, rfl, rfl⟩, ?_⟩
    cases hc : w.NewDNSManager .Dyn <;> simp only [hc] at hr <;>
      (repeat' split at hr) <;> (subst hr; simp_all)
  · right
    refine ⟨_, _, _, Or.inl ⟨.NoIP, Or.inr (Or.inr (Or.inl ⟨h3, rfl⟩)), rfl, rfl, rfl⟩, ?_⟩
    cases hc : w.NewDNSManager .NoIP <;> simp only [hc] at hr <;>
      (repeat' split at hr) <;> (subst hr; simp_all)
  · right
    refine ⟨_, _, _, Or.inl ⟨.DDNS, Or.inr (Or.inr (Or.inr ⟨h4, rfl⟩)), rfl, rfl, rfl⟩, ?_⟩
    cases hc : w.NewDNSManager .DDNS <;> simp only [hc] at hr <;>
      (repeat' split at hr) <;> (subst hr; simp_all)
  · cases hc : w.NewDNSManager .Dyn with
    | some e =>
      left
      simp only [hc] at hr
      exact ⟨e, ⟨h1, h2, h3, h4⟩, rfl, hr.symm⟩
    | none =>
      right
      simp only [hc] at hr
      refine ⟨_, _, _, Or.inr ⟨⟨h1, h2, h3, h4⟩, rfl, rfl, rfl, rfl⟩, ?_⟩
      (repeat' split at hr) <;> (subst hr; simp_all [DNSManager.SetApiEndpoint])

/-- In a list `pre ++ i :: tail` whose part `pre` holds no `IsFQDNUpToDate`
call and where `i` is an `Init` call, every `IsFQDNUpToDate` call comes after
an `Init` call. -/
theorem init_precedes (pre tail : List Event) (i : Event) (hi : i.isInit = true)
    (hpre : ∀ e ∈ pre, e.isIsFQDNUpToDate = false) :
    ∀ p e post, pre ++ i :: tail = p ++ e :: post → e.isIsFQDNUpToDate = true →
      ∃ e' ∈ p, e'.isInit = true := by
  intro p e post h he
  rcases List.append_eq_append_iff.mp h with ⟨a, hp, ha⟩ | ⟨c, hp, hc⟩
  · rcases a with _ | ⟨x, a⟩
    · simp at ha
      obtain ⟨rfl, -⟩ := ha
      cases i <;> simp_all [Event.isInit, Event.isIsFQDNUpToDate]
    · simp at ha
      obtain ⟨rfl, -⟩ := ha
      exact ⟨i, by simp [hp], hi⟩
  · rcases c with _ | ⟨x, c⟩
    · simp at hc
      obtain ⟨rfl, -⟩ := hc
      cases e <;> simp_all [Event.isInit, Event.isIsFQDNUpToDate]
    · simp at hc
      obtain ⟨rfl, -⟩ := hc
      have := hpre e (by simp [hp])
      simp_all

/-- In `ddflareFQDNUpdate`, every `IsFQDNUpToDate` call comes after an `Init`
call. -/
theorem ddflareFQDNUpdate_init_first (w : World) (ep authToken fqdn ip : String) :
    ∀ pre e post, (ddflareFQDNUpdate w ep authToken fqdn ip).2 = pre ++ e :: post →
      e.isIsFQDNUpToDate = true → ∃ e' ∈ pre, e'.isInit = true := by
  rcases ddflareFQDNUpdate_shape w ep authToken fqdn ip with
    ⟨e, -, -, h⟩ | ⟨dm, cerr, pre, hsel, hrun⟩
  · rw [h]
    intro p e' post h' he
    have h2 : [Event.NewDNSManager .Dyn (some e)] = p ++ e' :: post := h'
    rcases p with _ | ⟨x, p⟩ <;> simp at h2
    obtain ⟨rfl, -⟩ := h2
    simp [Event.isIsFQDNUpToDate] at he
  have hpre : ∀ e ∈ pre, e.isIsFQDNUpToDate = false := by
    rcases hsel with ⟨k, -, -, -, rfl⟩ | ⟨-, -, -, -, rfl⟩ <;> simp [Event.isIsFQDNUpToDate]
  rcases hrun with ⟨e, hc, h⟩ | ⟨hc, e, h⟩ | ⟨hc, e, h⟩ | ⟨hc, h⟩ | ⟨hc, r, h⟩ <;> rw [h]
  · intro p e post h he
    have h2 : pre = p ++ e :: post := h
    have := hpre e (by rw [h2]; simp)
    simp_all
  all_goals exact init_precedes pre _ _ rfl hpre

/-- In `ddflareFQDNUpdate`, `Init` and `Update` are each called at most once. -/
theorem ddflareFQDNUpdate_at_most_once (w : World) (ep authToken fqdn ip : String) :
    (ddflareFQDNUpdate w ep authToken fqdn ip).2.countP Event.isInit ≤ 1 ∧
    (ddflareFQDNUpdate w ep authToken fqdn ip).2.countP Event.isUpdate ≤ 1 := by
  rcases ddflareFQDNUpdate_shape w ep authToken fqdn ip with
    ⟨e, -, -, h⟩ | ⟨dm, cerr, pre, hsel, hrun⟩
  · rw [h]; simp [Event.isInit, Event.isUpdate, List.countP_cons]
  rcases hsel with ⟨k, -, -, -, rfl⟩ | ⟨-, -, -, -, rfl⟩ <;>
    rcases hrun with ⟨e, hc, h⟩ | ⟨hc, e, h⟩ | ⟨hc, e, h⟩ | ⟨hc, h⟩ | ⟨hc, r, h⟩ <;>
    rw [h] <;> simp [Event.isInit, Event.isUpdate, List.countP_cons]

/-- In `ddflareFQDNUpdate`, a call of `Update` happens only after a successful
construction, a successful `Init` and an `IsFQDNUpToDate fqdn ip` that
returned false without error; and its result is the result of the function. -/
theorem ddflareFQDNUpdate_update_guard (w : World) (ep authToken fqdn ip : String) :
    (∀ e ∈ (ddflareFQDNUpdate w ep authToken fqdn ip).2, e.isUpdate = true →
      (∀ k err, Event.NewDNSManager k err ∈ (ddflareFQDNUpdate w ep authToken fqdn ip).2 →
        err = none) ∧
      ∃ dm, Event.Init dm authToken none ∈ (ddflareFQDNUpdate w ep authToken fqdn ip).2 ∧
        Event.IsFQDNUpToDate dm fqdn ip (.ok false) ∈
          (ddflareFQDNUpdate w ep authToken fqdn ip).2) ∧
    (∀ dm f i err, Event.Update dm f i err ∈ (ddflareFQDNUpdate w ep authToken fqdn ip).2 →
      f = fqdn ∧ i = ip ∧ (ddflareFQDNUpdate w ep authToken fqdn ip).1 = .returned err) := by
  rcases ddflareFQDNUpdate_shape w ep authToken fqdn ip with
    ⟨e, -, -, h⟩ | ⟨dm, cerr, pre, hsel, hrun⟩
  · rw [h]; simp [Event.isUpdate]
  rcases hsel with ⟨k, -, -, hk, rfl⟩ | ⟨-, -, hk, -, rfl⟩ <;>
    rcases hrun with ⟨e, hc, h⟩ | ⟨hc, e, h⟩ | ⟨hc, e, h⟩ | ⟨hc, h⟩ | ⟨hc, r, h⟩ <;>
    rw [h] <;> constructor <;> simp_all [Event.isUpdate]

/-- In `ddflareFQDNUpdate`, once `IsFQDNUpToDate` has returned true no
`Update` call is made and the function returns the nil error. -/
theorem ddflareFQDNUpdate_up_to_date (w : World) (ep authToken fqdn ip : String) :
    ∀ dm f i, Event.IsFQDNUpToDate dm f i (.ok true) ∈
        (ddflareFQDNUpdate w ep authToken fqdn ip).2 →
      (∀ e ∈ (ddflareFQDNUpdate w ep authToken fqdn ip).2, e.isUpdate = false) ∧
      (ddflareFQDNUpdate w ep authToken fqdn ip).1 = .returned none := by
  rcases ddflareFQDNUpdate_shape w ep authToken fqdn ip with
    ⟨e, -, -, h⟩ | ⟨dm, cerr, pre, hsel, hrun⟩
  · rw [h]; simp
  rcases hsel with ⟨k, -, -, hk, rfl⟩ | ⟨-, -, hk, -, rfl⟩ <;>
    rcases hrun with ⟨e, hc, h⟩ | ⟨hc, e, h⟩ | ⟨hc, e, h⟩ | ⟨hc, h⟩ | ⟨hc, r, h⟩ <;>
    rw [h] <;> simp_all [Event.isUpdate]

/-- In `ddflareFQDNUpdate`, `IsFQDNUpToDate` is only ever called on the `fqdn`
and `ip` the function was given. -/
theorem ddflareFQDNUpdate_check_args (w : World) (ep authToken fqdn ip : String) :
    ∀ dm f i res, Event.IsFQDNUpToDate dm f i res ∈
        (ddflareFQDNUpdate w ep authToken fqdn ip).2 → f = fqdn ∧ i = ip := by
  rcases ddflareFQDNUpdate_shape w ep authToken fqdn ip with
    ⟨e, -, -, h⟩ | ⟨dm, cerr, pre, hsel, hrun⟩
  · rw [h]; simp
  rcases hsel with ⟨k, -, -, hk, rfl⟩ | ⟨-, -, hk, -, rfl⟩ <;>
    rcases hrun with ⟨e, hc, h⟩ | ⟨hc, e, h⟩ | ⟨hc, e, h⟩ | ⟨hc, h⟩ | ⟨hc, r, h⟩ <;>
    rw [h] <;> simp_all

/-- C5 (idempotence of the provider protocol).  For every endpoint, token,
fqdn and address, in the calls made by `ddflareFQDNUpdate`:
`Init` is called at most once; every `IsFQDNUpToDate` call is preceded by an
`Init` call and is made on the given `(fqdn, ip)`; `Update` is called at most
once; an `Update` call implies that no construction reported an error, that
`Init` returned nil and that `IsFQDNUpToDate fqdn ip` returned `(false, nil)`;
when `IsFQDNUpToDate` returned true, no `Update` call is made and the function
returns nil; and when `Update` is called, on `(fqdn, ip)`, the function
returns and its result is the result of `Update`. -/
theorem ddflareFQDNUpdate_protocol (w : World) (ep authToken fqdn ip : String) :
    (ddflareFQDNUpdate w ep authToken fqdn ip).2.countP Event.isInit ≤ 1
    ∧ (∀ pre e post, (ddflareFQDNUpdate w ep authToken fqdn ip).2 = pre ++ e :: post →
        e.isIsFQDNUpToDate = true → ∃ e' ∈ pre, e'.isInit = true)
    ∧ (∀ dm f i res, Event.IsFQDNUpToDate dm f i res ∈
        (ddflareFQDNUpdate w ep authToken fqdn ip).2 → f = fqdn ∧ i = ip)
    ∧ (ddflareFQDNUpdate w ep authToken fqdn ip).2.countP Event.isUpdate ≤ 1
    ∧ (∀ e ∈ (ddflareFQDNUpdate w ep authToken fqdn ip).2, e.isUpdate = true →
        (∀ k err, Event.NewDNSManager k err ∈ (ddflareFQDNUpdate w ep authToken fqdn ip).2 →
          err = none) ∧
        ∃ dm, Event.Init dm authToken none ∈ (ddflareFQDNUpdate w ep authToken fqdn ip).2 ∧
          Event.IsFQDNUpToDate dm fqdn ip (.ok false) ∈
            (ddflareFQDNUpdate w ep authToken fqdn ip).2)
    ∧ (∀ dm f i, Event.IsFQDNUpToDate dm f i (.ok true) ∈
          (ddflareFQDNUpdate w ep authToken fqdn ip).2 →
        (∀ e ∈ (ddflareFQDNUpdate w ep authToken fqdn ip).2, e.isUpdate = false) ∧
        (ddflareFQDNUpdate w ep authToken fqdn ip).1 = .returned none)
    ∧ (∀ dm f i err, Event.Update dm f i err ∈ (ddflareFQDNUpdate w ep authToken fqdn ip).2 →
        f = fqdn ∧ i = ip ∧
        (ddflareFQDNUpdate w ep authToken fqdn ip).1 = .returned err) :=
  ⟨(ddflareFQDNUpdate_at_most_once w ep authToken fqdn ip).1,
    ddflareFQDNUpdate_init_first w ep authToken fqdn ip,
    ddflareFQDNUpdate_check_args w ep authToken fqdn ip,
    (ddflareFQDNUpdate_at_most_once w ep authToken fqdn ip).2,
    (ddflareFQDNUpdate_update_guard w ep authToken fqdn ip).1,
    ddflareFQDNUpdate_up_to_date w ep authToken fqdn ip,
    (ddflareFQDNUpdate_update_guard w ep authToken fqdn ip).2⟩

/-- The dispatch of `ddflareFQDNUpdate`, as the code does it.  If `ep` is one
of the constants `Cloudflare`, `Dyn`, `NoIP`, `DDNS`, the first call
constructs the manager of that kind, a construction error is returned with no
further call, and every later call is an `Init`, `IsFQDNUpToDate` or `Update`
on that manager with no endpoint set.  For every other `ep` (empty or not) the
first call constructs the `Dyn` manager; when that succeeds the second call
sets `ep` verbatim as its API endpoint and every later call is made on the
`Dyn` manager with endpoint `ep`; when it fails the function dereferences the
nil manager and faults, having made no other call. -/
theorem ddflareFQDNUpdate_selection (w : World) (ep authToken fqdn ip : String) :
    (∀ k, ((ep = Cloudflare ∧ k = .Cloudflare) ∨ (ep = Dyn ∧ k = .Dyn) ∨
          (ep = NoIP ∧ k = .NoIP) ∨ (ep = DDNS ∧ k = .DDNS)) →
        (∃ tail, (ddflareFQDNUpdate w ep authToken fqdn ip).2 =
            Event.NewDNSManager k (w.NewDNSManager k) :: tail ∧
          ∀ e ∈ tail, e.onManager ⟨k, none⟩ = true) ∧
        (∀ err, w.NewDNSManager k = some err →
          ddflareFQDNUpdate w ep authToken fqdn ip =
            (.returned (some err), [Event.NewDNSManager k (some err)]))) ∧
    ((ep ≠ Cloudflare ∧ ep ≠ Dyn ∧ ep ≠ NoIP ∧ ep ≠ DDNS) →
        (w.NewDNSManager .Dyn = none →
          ∃ tail, (ddflareFQDNUpdate w ep authToken fqdn ip).2 =
              Event.NewDNSManager .Dyn none ::
                Event.SetApiEndpoint ⟨.Dyn, none⟩ ep :: tail ∧
            ∀ e ∈ tail, e.onManager ⟨.Dyn, some ep⟩ = true) ∧
        (∀ err, w.NewDNSManager .Dyn = some err →
          ddflareFQDNUpdate w ep authToken fqdn ip =
            (.fault, [Event.NewDNSManager .Dyn (some err)]))) := by
  refine ⟨?_, ?_⟩
  · intro k hk
    rcases ddflareFQDNUpdate_shape w ep authToken fqdn ip with
      ⟨e, hne, -, h⟩ | ⟨dm, cerr, pre, hsel, hrun⟩
    · exfalso
      rcases hk with ⟨h, -⟩ | ⟨h, -⟩ | ⟨h, -⟩ | ⟨h, -⟩ <;> simp_all
    rcases hsel with ⟨k', hk', rfl, rfl, rfl⟩ | ⟨hne, rfl, rfl, -, rfl⟩
    · have hkk : k' = k := by
        rcases hk with ⟨h, rfl⟩ | ⟨h, rfl⟩ | ⟨h, rfl⟩ | ⟨h, rfl⟩ <;>
          rcases hk' with ⟨h', rfl⟩ | ⟨h', rfl⟩ | ⟨h', rfl⟩ | ⟨h', rfl⟩ <;>
          first | rfl | (exfalso; rw [h] at h'; revert h'; decide)
      subst hkk
      rcases hrun with ⟨e, hc, h⟩ | ⟨hc, e, h⟩ | ⟨hc, e, h⟩ | ⟨hc, h⟩ | ⟨hc, r, h⟩ <;>
        rw [h] <;> simp [Event.onManager, hc]
    · exfalso
      rcases hk with ⟨h, -⟩ | ⟨h, -⟩ | ⟨h, -⟩ | ⟨h, -⟩ <;> simp_all
  · intro hne
    rcases ddflareFQDNUpdate_shape w ep authToken fqdn ip with
      ⟨e, -, hc, h⟩ | ⟨dm, cerr, pre, hsel, hrun⟩
    · rw [h]; simp [hc]
    rcases hsel with ⟨k', hk', rfl, rfl, rfl⟩ | ⟨-, rfl, rfl, hc, rfl⟩
    · exfalso
      rcases hk' with ⟨h, -⟩ | ⟨h, -⟩ | ⟨h, -⟩ | ⟨h, -⟩ <;> simp_all
    · rcases hrun with ⟨e, hc', h⟩ | ⟨-, e, h⟩ | ⟨-, e, h⟩ | ⟨-, h⟩ | ⟨-, r, h⟩
      · cases hc'
      all_goals (rw [h]; simp [Event.onManager, hc])

/-- C8, evaluated where the code departs from it.  With the custom endpoint
`https://ddns.example.net/nic/update` and a construction of the `Dyn` manager
that reports an error, `ddflareFQDNUpdate` calls `SetApiEndpoint` on the nil
manager before it tests the error: it faults instead of returning the
construction error, and `Reconcile` faults with it, before any status patch.
With the built-in endpoint `Cloudflare` the same construction error is
returned. -/
theorem ddflareFQDNUpdate_custom_endpoint_faults :
    worldWithFailingConstructor.NewDNSManager .Dyn = some (.other "unknown DNS manager") ∧
    ddflareFQDNUpdate worldWithFailingConstructor "https://ddns.example.net/nic/update"
        "s3cret" "home.example.com" "203.0.113.7" =
      (.fault, [Event.NewDNSManager .Dyn (some (.other "unknown DNS manager"))]) ∧
    (Reconcile { worldWithFailingConstructor with GetHostname := fun _ => .ok customEndpointHostname }
        exampleHeap exampleRequest).outcome = .fault ∧
    (∀ e ∈ (Reconcile { worldWithFailingConstructor with
          GetHostname := fun _ => .ok customEndpointHostname }
        exampleHeap exampleRequest).trace, e.isStatusPatch = false) ∧
    ddflareFQDNUpdate worldWithFailingConstructor "Cloudflare"
        "s3cret" "home.example.com" "203.0.113.7" =
      (.returned (some (.other "unknown DNS manager")),
        [Event.NewDNSManager .Cloudflare (some (.other "unknown DNS manager"))]) := by
  decide

/-! ## The reconciler: `Reconcile` -/

/-- The eight ways a call of `Reconcile` can go. -/
theorem Reconcile_cases (w : World) (σ : Heap) (req : NamespacedName) :
    (∃ err, w.GetHostname req = .error err ∧
      Reconcile w σ req = ⟨.returned {} (IgnoreNotFound err), σ, [Event.GetHostname req (.error err)]⟩)
    ∨ (∃ h, w.GetHostname req = .ok h ∧
        (h.Spec.DDNSService = none ∨ ∃ svc, h.Spec.DDNSService = some svc ∧ svc.AuthSecretRef = none) ∧
        Reconcile w σ req = ⟨.fault, σ, [Event.GetHostname req (.ok h)]⟩)
    ∨ (∃ h svc ref err, w.GetHostname req = .ok h ∧ h.Spec.DDNSService = some svc ∧
        svc.AuthSecretRef = some ref ∧ w.GetSecret ⟨ref.Namespace, ref.Name⟩ = .error err ∧
        Reconcile w σ req = ⟨.returned {} (some err), σ,
          [Event.GetHostname req (.ok h), Event.GetSecret ⟨ref.Namespace, ref.Name⟩ (.error err)]⟩)
    ∨ (∃ h svc ref secret, w.GetHostname req = .ok h ∧ h.Spec.DDNSService = some svc ∧
        svc.AuthSecretRef = some ref ∧ w.GetSecret ⟨ref.Namespace, ref.Name⟩ = .ok secret ∧
        secret.Data.lookup "authToken" = none ∧
        Reconcile w σ req = ⟨.returned {} (some (.other "\x27authToken\x27 not found")), σ,
          [Event.GetHostname req (.ok h), Event.GetSecret ⟨ref.Namespace, ref.Name⟩ (.ok secret)]⟩)
    ∨ (∃ h svc ref secret token err, w.GetHostname req = .ok h ∧ h.Spec.DDNSService = some svc ∧
        svc.AuthSecretRef = some ref ∧ w.GetSecret ⟨ref.Namespace, ref.Name⟩ = .ok secret ∧
        secret.Data.lookup "authToken" = some token ∧ h.Spec.Address = "" ∧
        w.GetPublicIP = .error err ∧
        Reconcile w σ req = ⟨.returned {} (some err), σ,
          [Event.GetHostname req (.ok h), Event.GetSecret ⟨ref.Namespace, ref.Name⟩ (.ok secret),
            Event.GetPublicIP (.error err)]⟩)
    ∨ (∃ h svc token address pre, Resolved w req h svc token address pre ∧
        (h.Status.LastUpdate = none ∨
          ∃ p, h.Status.LastUpdate = some p ∧ (σ.lastUpdate p).ScheduledAt = none) ∧
        Reconcile w σ req = ⟨.fault, σ, pre⟩)
    ∨ (∃ h svc token address pre p q, Resolved w req h svc token address pre ∧
        h.Status.LastUpdate = some p ∧ (σ.lastUpdate p).ScheduledAt = some q ∧
        (ddflareFQDNUpdate w svc.Endpoint token h.Spec.Hostname address).1 = .fault ∧
        Reconcile w σ req = ⟨.fault,
          ((σ.setTime q w.Now).setAddress p address).setHostname p h.Spec.Hostname,
          pre ++ (ddflareFQDNUpdate w svc.Endpoint token h.Spec.Hostname address).2⟩)
    ∨ (∃ h svc token address pre p q uerr, Resolved w req h svc token address pre ∧
        h.Status.LastUpdate = some p ∧ (σ.lastUpdate p).ScheduledAt = some q ∧
        (ddflareFQDNUpdate w svc.Endpoint token h.Spec.Hostname address).1 = .returned uerr ∧
        (Reconcile w σ req).heap =
          (match uerr with
            | some _ => (((σ.setTime q w.Now).setAddress p address).setHostname p
                h.Spec.Hostname).setFailed p true
            | none => ((σ.setTime q w.Now).setAddress p address).setHostname p h.Spec.Hostname) ∧
        ∃ perr, perr = w.StatusPatch ((Reconcile w σ req).heap.view h)
              ((Reconcile w σ req).heap.view h.DeepCopy) ∧
          (Reconcile w σ req).trace =
            pre ++ (ddflareFQDNUpdate w svc.Endpoint token h.Spec.Hostname address).2 ++
              [Event.StatusPatch ((Reconcile w σ req).heap.view h)
                ((Reconcile w σ req).heap.view h.DeepCopy) perr] ∧
          ((∃ e, perr = some e ∧ (Reconcile w σ req).outcome = .returned {} (some e)) ∨
            (perr = none ∧ h.Spec.CheckIntervalMinutes = none ∧
              (Reconcile w σ req).outcome = .fault) ∨
            (perr = none ∧ h.Spec.CheckIntervalMinutes = some 0 ∧
              (Reconcile w σ req).outcome = .returned {} none) ∨
            (perr = none ∧ ∃ n, h.Spec.CheckIntervalMinutes = some n ∧ n ≠ 0 ∧
              (Reconcile w σ req).outcome =
                .returned { RequeueAfter := wrapInt64 (n * Minute) } none))) := by
  generalize hr : Reconcile w σ req = R
  unfold Reconcile at hr
  split at hr
  · left; exact ⟨_, ‹_›, hr.symm⟩
  rename_i hostname hget
  right
  simp only [] at hr
  split at hr
  · left; exact ⟨_, hget, Or.inl ‹_›, hr.symm⟩
  rename_i svc hsvc
  split at hr
  · left; exact ⟨_, hget, Or.inr ⟨_, hsvc, ‹_›⟩, hr.symm⟩
  rename_i ref href
  right
  split at hr
  · left; exact ⟨_, _, _, _, hget, hsvc, href, ‹_›, hr.symm⟩
  rename_i secret hsec
  right
  split at hr
  · left; exact ⟨_, _, _, _, hget, hsvc, href, hsec, ‹_›, hr.symm⟩
  rename_i token htok
  right
  have hres : ∀ address,
      (if hostname.Spec.Address = "" then (w.GetPublicIP, [Event.GetPublicIP w.GetPublicIP])
        else (Except.ok hostname.Spec.Address, [])).1 = .ok address →
      Resolved w req hostname svc token address
        ([Event.GetHostname req (.ok hostname)] ++
          [Event.GetSecret ⟨ref.Namespace, ref.Name⟩ (.ok secret)] ++
          (if hostname.Spec.Address = "" then (w.GetPublicIP, [Event.GetPublicIP w.GetPublicIP])
            else (Except.ok hostname.Spec.Address, [])).2) := by
    clear hr
    intro address haddr
    refine ⟨hget, hsvc, ref, secret, href, hsec, htok, ?_⟩
    by_cases ha : hostname.Spec.Address = ""
    · right
      simp only [ha, if_true] at haddr ⊢
      simp [haddr]
    · left
      simp only [ha, if_false] at haddr ⊢
      simp at haddr
      subst haddr
      simp [ha]
  split at hr
  · rename_i err haddr
    left
    by_cases ha : hostname.Spec.Address = ""
    · simp only [ha, if_true] at haddr hr
      refine ⟨_, _, _, _, _, _, hget, hsvc, href, hsec, htok, ha, haddr, ?_⟩
      rw [← hr, haddr]; rfl
    · simp only [ha, if_false] at haddr
      simp at haddr
  rename_i address haddr
  right
  have hR := hres address haddr
  generalize ([Event.GetHostname req (.ok hostname)] ++
          [Event.GetSecret ⟨ref.Namespace, ref.Name⟩ (.ok secret)] ++
          (if hostname.Spec.Address = "" then (w.GetPublicIP, [Event.GetPublicIP w.GetPublicIP])
            else (Except.ok hostname.Spec.Address, [])).2) = pre at hr hR
  split at hr
  · left; exact ⟨_, _, _, _, _, hR, Or.inl ‹_›, hr.symm⟩
  rename_i p hp
  split at hr
  · left; exact ⟨_, _, _, _, _, hR, Or.inr ⟨_, hp, ‹_›⟩, hr.symm⟩
  rename_i q hq
  right
  split at hr
  · left; exact ⟨_, _, _, _, _, _, _, hR, hp, hq, ‹_›, hr.symm⟩
  rename_i uerr hu
  right
  refine ⟨_, _, _, _, _, _, _, uerr, hR, hp, hq, hu, ?_⟩
  split at hr
  · subst hr
    rename_i e he
    refine ⟨rfl, _, rfl, rfl, Or.inl ⟨e, he, rfl⟩⟩
  rename_i hperr
  split at hr
  · subst hr
    rename_i hc
    refine ⟨rfl, _, rfl, rfl, Or.inr (Or.inl ⟨hperr, hc, rfl⟩)⟩
  rename_i n hn
  split at hr
  · subst hr
    rename_i h0
    subst h0
    refine ⟨rfl, _, rfl, rfl, Or.inr (Or.inr (Or.inl ⟨hperr, hn, rfl⟩))⟩
  · subst hr
    rename_i h0
    refine ⟨rfl, _, rfl, rfl, Or.inr (Or.inr (Or.inr ⟨hperr, n, hn, h0, rfl⟩))⟩

/-- A failing fetch ends the pass: the error is returned unless it is a
not-found error. -/
theorem Reconcile_of_fetch_error (w : World) (σ : Heap) (req : NamespacedName) (e : Err)
    (hget : w.GetHostname req = .error e) :
    Reconcile w σ req =
      ⟨.returned {} (IgnoreNotFound e), σ, [Event.GetHostname req (.error e)]⟩ := by
  simp [Reconcile, hget]

/-- A failing secret read ends the pass with its error. -/
theorem Reconcile_of_secret_error (w : World) (σ : Heap) (req : NamespacedName)
    (h : Hostname) (svc : DDNSServiceData) (ref : ObjectReference) (e : Err)
    (hget : w.GetHostname req = .ok h) (hsvc : h.Spec.DDNSService = some svc)
    (href : svc.AuthSecretRef = some ref)
    (hsec : w.GetSecret ⟨ref.Namespace, ref.Name⟩ = .error e) :
    Reconcile w σ req = ⟨.returned {} (some e), σ,
      [Event.GetHostname req (.ok h), Event.GetSecret ⟨ref.Namespace, ref.Name⟩ (.error e)]⟩ := by
  simp [Reconcile, hget, hsvc, href, hsec]

/-- A secret without the key `authToken` ends the pass with an error. -/
theorem Reconcile_of_missing_token (w : World) (σ : Heap) (req : NamespacedName)
    (h : Hostname) (svc : DDNSServiceData) (ref : ObjectReference) (secret : Secret)
    (hget : w.GetHostname req = .ok h) (hsvc : h.Spec.DDNSService = some svc)
    (href : svc.AuthSecretRef = some ref)
    (hsec : w.GetSecret ⟨ref.Namespace, ref.Name⟩ = .ok secret)
    (htok : secret.Data.lookup "authToken" = none) :
    Reconcile w σ req = ⟨.returned {} (some (.other "\x27authToken\x27 not found")), σ,
      [Event.GetHostname req (.ok h),
        Event.GetSecret ⟨ref.Namespace, ref.Name⟩ (.ok secret)]⟩ := by
  simp [Reconcile, hget, hsvc, href, hsec, htok, -List.lookup_eq_none_iff]

/-- A failing public IP detection, made because `Spec.Address` is empty, ends
the pass with its error. -/
theorem Reconcile_of_ip_error (w : World) (σ : Heap) (req : NamespacedName)
    (h : Hostname) (svc : DDNSServiceData) (ref : ObjectReference) (secret : Secret)
    (token : String) (e : Err)
    (hget : w.GetHostname req = .ok h) (hsvc : h.Spec.DDNSService = some svc)
    (href : svc.AuthSecretRef = some ref)
    (hsec : w.GetSecret ⟨ref.Namespace, ref.Name⟩ = .ok secret)
    (htok : secret.Data.lookup "authToken" = some token)
    (ha : h.Spec.Address = "") (hip : w.GetPublicIP = .error e) :
    Reconcile w σ req = ⟨.returned {} (some e), σ,
      [Event.GetHostname req (.ok h), Event.GetSecret ⟨ref.Namespace, ref.Name⟩ (.ok secret),
        Event.GetPublicIP (.error e)]⟩ := by
  simp [Reconcile, hget, hsvc, href, hsec, htok, ha, hip]

/-- Two resolutions of the same pass agree. -/
theorem Resolved_unique (w : World) (req : NamespacedName) (h h' : Hostname)
    (svc svc' : DDNSServiceData) (token token' address address' : String)
    (pre pre' : List Event)
    (hR : Resolved w req h svc token address pre)
    (hR' : Resolved w req h' svc' token' address' pre') :
    h = h' ∧ svc = svc' ∧ token = token' ∧ address = address' ∧ pre = pre' := by
  obtain ⟨hget, hsvc, ref, secret, href, hsec, htok, hcase⟩ := hR
  obtain ⟨hget', hsvc', ref', secret', href', hsec', htok', hcase'⟩ := hR'
  rw [hget] at hget'; cases hget'
  rw [hsvc] at hsvc'; cases hsvc'
  rw [href] at href'; cases href'
  rw [hsec] at hsec'; cases hsec'
  rw [htok] at htok'; cases htok'
  rcases hcase with ⟨ha, rfl, rfl⟩ | ⟨ha, hip, rfl⟩ <;>
    rcases hcase' with ⟨ha', rfl, rfl⟩ | ⟨ha', hip', rfl⟩
  · exact ⟨rfl, rfl, rfl, rfl, rfl⟩
  · exact absurd ha' ha
  · exact absurd ha ha'
  · rw [hip] at hip'; cases hip'
    exact ⟨rfl, rfl, rfl, rfl, rfl⟩

/-- A pass that resolved credentials and address, found `LastUpdate` and
`ScheduledAt` present and got a result from `ddflareFQDNUpdate`: it patches
the status with the heap it wrote, returns the error of a failing patch, and
returns no error after a successful patch. -/
theorem Reconcile_of_resolved (w : World) (σ : Heap) (req : NamespacedName)
    (h : Hostname) (svc : DDNSServiceData) (token address : String) (pre : List Event)
    (p q : Ptr) (uerr : Option Err)
    (hR : Resolved w req h svc token address pre)
    (hp : h.Status.LastUpdate = some p) (hq : (σ.lastUpdate p).ScheduledAt = some q)
    (hu : (ddflareFQDNUpdate w svc.Endpoint token h.Spec.Hostname address).1 =
      .returned uerr) :
    (Reconcile w σ req).heap = σ.written p q w.Now address h.Spec.Hostname uerr ∧
    (Reconcile w σ req).trace =
      pre ++ (ddflareFQDNUpdate w svc.Endpoint token h.Spec.Hostname address).2 ++
        [Event.StatusPatch ((σ.written p q w.Now address h.Spec.Hostname uerr).view h) ((σ.written p q w.Now address h.Spec.Hostname uerr).view h.DeepCopy)
          (w.StatusPatch ((σ.written p q w.Now address h.Spec.Hostname uerr).view h) ((σ.written p q w.Now address h.Spec.Hostname uerr).view h.DeepCopy))] ∧
    (∀ e, w.StatusPatch ((σ.written p q w.Now address h.Spec.Hostname uerr).view h) ((σ.written p q w.Now address h.Spec.Hostname uerr).view h.DeepCopy) = some e →
      (Reconcile w σ req).outcome = .returned {} (some e)) ∧
    (w.StatusPatch ((σ.written p q w.Now address h.Spec.Hostname uerr).view h) ((σ.written p q w.Now address h.Spec.Hostname uerr).view h.DeepCopy) = none →
      ∀ res e, (Reconcile w σ req).outcome ≠ .returned res (some e)) := by
  rcases Reconcile_cases w σ req with
    ⟨err, hget', h'⟩ | ⟨h0, hget', hf, h'⟩ | ⟨h0, svc0, ref, err, hget', hsvc, href, hsec, h'⟩ |
    ⟨h0, svc0, ref, secret, hget', hsvc, href, hsec, htok, h'⟩ |
    ⟨h0, svc0, ref, secret, token0, err, hget', hsvc, href, hsec, htok, ha, hip, h'⟩ |
    ⟨h0, svc0, token0, address0, pre0, hR0, hf, h'⟩ |
    ⟨h0, svc0, token0, address0, pre0, p0, q0, hR0, hp0, hq0, hu0, h'⟩ |
    ⟨h0, svc0, token0, address0, pre0, p0, q0, uerr0, hR0, hp0, hq0, hu0, hheap, perr, hperr,
      htr, hout⟩
  · exfalso; rw [hR.1] at hget'; cases hget'
  · exfalso
    obtain ⟨hget, hsvc, ref, secret, href, -⟩ := hR
    rw [hget] at hget'; cases hget'
    rcases hf with hf | ⟨svc1, hs1, hf⟩
    · rw [hsvc] at hf; cases hf
    · rw [hsvc] at hs1; cases hs1; rw [href] at hf; cases hf
  · exfalso
    obtain ⟨hget, hsvc0, ref0, secret, href0, hsec0, -⟩ := hR
    rw [hget] at hget'; cases hget'
    rw [hsvc0] at hsvc; cases hsvc
    rw [href0] at href; cases href
    rw [hsec0] at hsec; cases hsec
  · exfalso
    obtain ⟨hget, hsvc0, ref0, secret0, href0, hsec0, htok0, -⟩ := hR
    rw [hget] at hget'; cases hget'
    rw [hsvc0] at hsvc; cases hsvc
    rw [href0] at href; cases href
    rw [hsec0] at hsec; cases hsec
    rw [htok0] at htok; cases htok
  · exfalso
    obtain ⟨hget, hsvc0, ref0, secret0, href0, hsec0, htok0, hcase⟩ := hR
    rw [hget] at hget'; cases hget'
    rcases hcase with ⟨ha', -, -⟩ | ⟨-, hip', -⟩
    · exact ha' ha
    · rw [hip] at hip'; cases hip'
  · exfalso
    obtain ⟨rfl, rfl, rfl, rfl, rfl⟩ := Resolved_unique _ _ _ _ _ _ _ _ _ _ _ _ hR hR0
    rcases hf with hf | ⟨p1, hp1, hf⟩
    · rw [hp] at hf; cases hf
    · rw [hp] at hp1; cases hp1; rw [hq] at hf; cases hf
  · exfalso
    obtain ⟨rfl, rfl, rfl, rfl, rfl⟩ := Resolved_unique _ _ _ _ _ _ _ _ _ _ _ _ hR hR0
    rw [hu] at hu0; cases hu0
  · obtain ⟨rfl, rfl, rfl, rfl, rfl⟩ := Resolved_unique _ _ _ _ _ _ _ _ _ _ _ _ hR hR0
    rw [hp] at hp0; cases hp0
    rw [hq] at hq0; cases hq0
    rw [hu] at hu0; cases hu0
    have hh : (Reconcile w σ req).heap =
        σ.written p q w.Now address h.Spec.Hostname uerr := by
      rw [hheap]; unfold Heap.written; cases uerr <;> rfl
    rw [hh] at hperr htr
    subst hperr
    refine ⟨hh, htr, ?_, ?_⟩
    · intro e he
      rcases hout with ⟨e', he', ho⟩ | ⟨he', -, ho⟩ | ⟨he', -, ho⟩ | ⟨he', n, -, -, ho⟩
      · rw [he] at he'; cases he'; exact ho
      · rw [he] at he'; cases he'
      · rw [he] at he'; cases he'
      · rw [he] at he'; cases he'
    · intro hn res e
      rcases hout with ⟨e', he', ho⟩ | ⟨he', -, ho⟩ | ⟨he', -, ho⟩ | ⟨he', n, -, -, ho⟩
      · rw [hn] at he'; cases he'
      · rw [ho]; simp
      · rw [ho]; simp
      · rw [ho]; simp

/-- A call that is not a call of the provider adapter is not among the calls
of `ddflareFQDNUpdate`. -/
theorem not_mem_ddflareFQDNUpdate (w : World) (ep authToken fqdn ip : String) (e : Event)
    (he : e.isProvider = false) : e ∉ (ddflareFQDNUpdate w ep authToken fqdn ip).2 := by
  intro hmem
  have := ddflareFQDNUpdate_trace_isProvider w ep authToken fqdn ip e hmem
  simp [he] at this

/-- The errors `Reconcile` returns, in terms of what the collaborators do:
`Reconcile` returns the non-nil error `e` exactly in the five listed
situations. -/
theorem Reconcile_error_causes_world (w : World) (σ : Heap) (req : NamespacedName) (e : Err) :
    (∃ res, (Reconcile w σ req).outcome = .returned res (some e)) ↔
      ((∃ msg, e = .other msg ∧ w.GetHostname req = .error e) ∨
        (∃ h svc ref, w.GetHostname req = .ok h ∧ h.Spec.DDNSService = some svc ∧
          svc.AuthSecretRef = some ref ∧
          w.GetSecret ⟨ref.Namespace, ref.Name⟩ = .error e) ∨
        (∃ h svc ref secret, w.GetHostname req = .ok h ∧ h.Spec.DDNSService = some svc ∧
          svc.AuthSecretRef = some ref ∧
          w.GetSecret ⟨ref.Namespace, ref.Name⟩ = .ok secret ∧
          secret.Data.lookup "authToken" = none ∧
          e = .other "\x27authToken\x27 not found") ∨
        (∃ h svc ref secret token, w.GetHostname req = .ok h ∧
          h.Spec.DDNSService = some svc ∧ svc.AuthSecretRef = some ref ∧
          w.GetSecret ⟨ref.Namespace, ref.Name⟩ = .ok secret ∧
          secret.Data.lookup "authToken" = some token ∧
          h.Spec.Address = "" ∧ w.GetPublicIP = .error e) ∨
        (∃ h svc token address pre p q uerr, Resolved w req h svc token address pre ∧
          h.Status.LastUpdate = some p ∧ (σ.lastUpdate p).ScheduledAt = some q ∧
          (ddflareFQDNUpdate w svc.Endpoint token h.Spec.Hostname address).1 =
            .returned uerr ∧
          w.StatusPatch ((σ.written p q w.Now address h.Spec.Hostname uerr).view h)
            ((σ.written p q w.Now address h.Spec.Hostname uerr).view h.DeepCopy) = some e)) := by
  constructor
  · rintro ⟨res, hres⟩
    rcases Reconcile_cases w σ req with
      ⟨err, hget, h'⟩ | ⟨h0, hget, hf, h'⟩ | ⟨h0, svc, ref, err, hget, hsvc, href, hsec, h'⟩ |
      ⟨h0, svc, ref, secret, hget, hsvc, href, hsec, htok, h'⟩ |
      ⟨h0, svc, ref, secret, token, err, hget, hsvc, href, hsec, htok, ha, hip, h'⟩ |
      ⟨h0, svc, token, address, pre, hR, hf, h'⟩ |
      ⟨h0, svc, token, address, pre, p, q, hR, hp, hq, hu, h'⟩ |
      ⟨h0, svc, token, address, pre, p, q, uerr, hR, hp, hq, hu, hheap, perr, hperr, htr, hout⟩
    · rw [h'] at hres
      cases err with
      | notFound m => simp [IgnoreNotFound] at hres
      | other m =>
        simp [IgnoreNotFound] at hres
        obtain ⟨-, rfl⟩ := hres
        exact Or.inl ⟨m, rfl, hget⟩
    · rw [h'] at hres; simp at hres
    · rw [h'] at hres; simp at hres
      obtain ⟨-, rfl⟩ := hres
      exact Or.inr (Or.inl ⟨_, _, _, hget, hsvc, href, hsec⟩)
    · rw [h'] at hres; simp at hres
      obtain ⟨-, rfl⟩ := hres
      exact Or.inr (Or.inr (Or.inl ⟨_, _, _, _, hget, hsvc, href, hsec, htok, rfl⟩))
    · rw [h'] at hres; simp at hres
      obtain ⟨-, rfl⟩ := hres
      exact Or.inr (Or.inr (Or.inr (Or.inl
        ⟨_, _, _, _, _, hget, hsvc, href, hsec, htok, ha, hip⟩)))
    · rw [h'] at hres; simp at hres
    · rw [h'] at hres; simp at hres
    · have hh : (Reconcile w σ req).heap =
          σ.written p q w.Now address h0.Spec.Hostname uerr := by
        rw [hheap]; unfold Heap.written; cases uerr <;> rfl
      rw [hh] at hperr
      rcases hout with ⟨e', he', ho⟩ | ⟨he', -, ho⟩ | ⟨he', -, ho⟩ | ⟨he', n, -, -, ho⟩
      · rw [ho] at hres; simp at hres
        obtain ⟨-, rfl⟩ := hres
        refine Or.inr (Or.inr (Or.inr (Or.inr
          ⟨_, _, _, _, _, _, _, _, hR, hp, hq, hu, ?_⟩)))
        rw [← hperr, he']
      · rw [ho] at hres; simp at hres
      · rw [ho] at hres; simp at hres
      · rw [ho] at hres; simp at hres
  · rintro (⟨msg, rfl, hget⟩ | ⟨h, svc, ref, hget, hsvc, href, hsec⟩ |
      ⟨h, svc, ref, secret, hget, hsvc, href, hsec, htok, rfl⟩ |
      ⟨h, svc, ref, secret, token, hget, hsvc, href, hsec, htok, ha, hip⟩ |
      ⟨h, svc, token, address, pre, p, q, uerr, hR, hp, hq, hu, hpatch⟩)
    · rw [Reconcile_of_fetch_error w σ req _ hget]; exact ⟨_, rfl⟩
    · rw [Reconcile_of_secret_error w σ req h svc ref e hget hsvc href hsec]; exact ⟨_, rfl⟩
    · rw [Reconcile_of_missing_token w σ req h svc ref secret hget hsvc href hsec htok]
      exact ⟨_, rfl⟩
    · rw [Reconcile_of_ip_error w σ req h svc ref secret token e hget hsvc href hsec htok ha hip]
      exact ⟨_, rfl⟩
    · exact ⟨_, (Reconcile_of_resolved w σ req h svc token address pre p q uerr hR hp hq
        hu).2.2.1 e hpatch⟩

/-- The errors `Reconcile` returns, in terms of the calls it made. -/
theorem Reconcile_error_causes_trace (w : World) (σ : Heap) (req : NamespacedName) :
    (∀ e, (∃ res, (Reconcile w σ req).outcome = .returned res (some e)) ↔
      ((∃ msg, e = .other msg ∧
          Event.GetHostname req (.error e) ∈ (Reconcile w σ req).trace) ∨
        (∃ key, Event.GetSecret key (.error e) ∈ (Reconcile w σ req).trace) ∨
        (e = .other "\x27authToken\x27 not found" ∧ ∃ key secret,
          Event.GetSecret key (.ok secret) ∈ (Reconcile w σ req).trace ∧
          secret.Data.lookup "authToken" = none) ∨
        (Event.GetPublicIP (.error e) ∈ (Reconcile w σ req).trace ∧
          ∃ h, Event.GetHostname req (.ok h) ∈ (Reconcile w σ req).trace ∧
            h.Spec.Address = "") ∨
        (∃ m o, Event.StatusPatch m o (some e) ∈ (Reconcile w σ req).trace)))
    ∧ (∀ res e, (Reconcile w σ req).outcome = .returned res (some e) → res = {})
    ∧ (∀ msg, Event.GetHostname req (.error (.notFound msg)) ∈ (Reconcile w σ req).trace →
        (Reconcile w σ req).outcome = .returned {} none)
    ∧ (∀ m o, Event.StatusPatch m o none ∈ (Reconcile w σ req).trace →
        ∀ res e, (Reconcile w σ req).outcome ≠ .returned res (some e)) := by
  have hnp := not_mem_ddflareFQDNUpdate w
  rcases Reconcile_cases w σ req with
    ⟨err, hget, h⟩ | ⟨h0, hget, -, h⟩ | ⟨h0, svc, ref, err, hget, hsvc, href, hsec, h⟩ |
    ⟨h0, svc, ref, secret, hget, hsvc, href, hsec, htok, h⟩ |
    ⟨h0, svc, ref, secret, token, err, hget, hsvc, href, hsec, htok, ha, hip, h⟩ |
    ⟨h0, svc, token, address, pre, hR, -, h⟩ |
    ⟨h0, svc, token, address, pre, p, q, hR, hp, hq, hu, h⟩ |
    ⟨h0, svc, token, address, pre, p, q, uerr, hR, hp, hq, hu, hheap, perr, hperr, htr, hout⟩
  · rw [h]
    cases err <;> simp [IgnoreNotFound]
    intro e; constructor
    · rintro rfl; exact ⟨⟨_, rfl⟩, rfl⟩
    · rintro ⟨-, rfl⟩; rfl
  · rw [h]; simp
  · rw [h]; simp
    intro e; exact eq_comm
  · rw [h]; simp [htok, -List.lookup_eq_none_iff]
    intro e; constructor
    · rintro rfl; exact ⟨rfl, _, _, ⟨rfl, rfl⟩, htok⟩
    · rintro ⟨rfl, -⟩; rfl
  · rw [h]; simp [ha, htok, -List.lookup_eq_none_iff]
    intro e; constructor
    · rintro rfl; exact Or.inr rfl
    · rintro (⟨-, k, s, ⟨-, rfl⟩, hs⟩ | rfl)
      · rw [htok] at hs; cases hs
      · rfl
  · obtain ⟨-, -, ref, secret, -, -, htok, ⟨ha, -, rfl⟩ | ⟨ha, -, rfl⟩⟩ := hR <;>
      rw [h] <;> simp [htok, -List.lookup_eq_none_iff]
  · obtain ⟨-, -, ref, secret, -, -, htok, ⟨ha, -, rfl⟩ | ⟨ha, -, rfl⟩⟩ := hR <;>
      rw [h] <;> simp [htok, hnp, Event.isProvider, -List.lookup_eq_none_iff]
  · obtain ⟨-, -, ref, secret, -, -, htok, ⟨ha, -, rfl⟩ | ⟨ha, -, rfl⟩⟩ := hR <;>
      rw [htr] <;>
      rcases hout with ⟨e, he, ho⟩ | ⟨he, -, ho⟩ | ⟨he, -, ho⟩ | ⟨he, n, -, -, ho⟩ <;>
      rw [ho, he] <;>
      simp [htok, hnp, Event.isProvider, -List.lookup_eq_none_iff] <;>
      (intro e'; constructor
       · rintro rfl; exact Or.inr rfl
       · rintro (⟨-, k, s, ⟨-, rfl⟩, hs⟩ | rfl)
         · rw [htok] at hs; cases hs
         · rfl)

/-- C4 (error-iff of `Reconcile`).  For every world (every combination of
outcomes of the external calls), heap and request:

* `Reconcile` returns the non-nil error `e` exactly when the initial fetch
  fails with the error `e` other than not-found; or the resource is fetched
  and the secret read fails with `e`; or the secret is read and has no
  `authToken` key (`e` is the error built for that); or `Spec.Address` is
  empty and the public IP detection fails with `e`; or the pass resolves
  credentials and address, writes the status in memory, gets a result from
  the provider adapter and the status patch fails with `e`;
* the same five causes, read off the calls the pass made;
* a returned error always comes with the empty `ctrl.Result`;
* a fetch that fails with not-found returns the empty result and the nil
  error;
* when the status patch succeeds, no error is returned, whatever the provider
  adapter returned (an error of construction, `Init`, `IsFQDNUpToDate` or
  `Update` included). -/
theorem Reconcile_error_iff (w : World) (σ : Heap) (req : NamespacedName) :
    (∀ e, (∃ res, (Reconcile w σ req).outcome = .returned res (some e)) ↔
      ((∃ msg, e = .other msg ∧ w.GetHostname req = .error e) ∨
        (∃ h svc ref, w.GetHostname req = .ok h ∧ h.Spec.DDNSService = some svc ∧
          svc.AuthSecretRef = some ref ∧
          w.GetSecret ⟨ref.Namespace, ref.Name⟩ = .error e) ∨
        (∃ h svc ref secret, w.GetHostname req = .ok h ∧ h.Spec.DDNSService = some svc ∧
          svc.AuthSecretRef = some ref ∧
          w.GetSecret ⟨ref.Namespace, ref.Name⟩ = .ok secret ∧
          secret.Data.lookup "authToken" = none ∧
          e = .other "\x27authToken\x27 not found") ∨
        (∃ h svc ref secret token, w.GetHostname req = .ok h ∧
          h.Spec.DDNSService = some svc ∧ svc.AuthSecretRef = some ref ∧
          w.GetSecret ⟨ref.Namespace, ref.Name⟩ = .ok secret ∧
          secret.Data.lookup "authToken" = some token ∧
          h.Spec.Address = "" ∧ w.GetPublicIP = .error e) ∨
        (∃ h svc token address pre p q uerr, Resolved w req h svc token address pre ∧
          h.Status.LastUpdate = some p ∧ (σ.lastUpdate p).ScheduledAt = some q ∧
          (ddflareFQDNUpdate w svc.Endpoint token h.Spec.Hostname address).1 =
            .returned uerr ∧
          w.StatusPatch ((σ.written p q w.Now address h.Spec.Hostname uerr).view h)
            ((σ.written p q w.Now address h.Spec.Hostname uerr).view h.DeepCopy) = some e)))
    ∧ (∀ e, (∃ res, (Reconcile w σ req).outcome = .returned res (some e)) ↔
      ((∃ msg, e = .other msg ∧
          Event.GetHostname req (.error e) ∈ (Reconcile w σ req).trace) ∨
        (∃ key, Event.GetSecret key (.error e) ∈ (Reconcile w σ req).trace) ∨
        (e = .other "\x27authToken\x27 not found" ∧ ∃ key secret,
          Event.GetSecret key (.ok secret) ∈ (Reconcile w σ req).trace ∧
          secret.Data.lookup "authToken" = none) ∨
        (Event.GetPublicIP (.error e) ∈ (Reconcile w σ req).trace ∧
          ∃ h, Event.GetHostname req (.ok h) ∈ (Reconcile w σ req).trace ∧
            h.Spec.Address = "") ∨
        (∃ m o, Event.StatusPatch m o (some e) ∈ (Reconcile w σ req).trace)))
    ∧ (∀ res e, (Reconcile w σ req).outcome = .returned res (some e) → res = {})
    ∧ (∀ msg, w.GetHostname req = .error (.notFound msg) →
        Reconcile w σ req =
          ⟨.returned {} none, σ, [Event.GetHostname req (.error (.notFound msg))]⟩)
    ∧ (∀ h svc token address pre p q uerr,
        (Resolved w req h svc token address pre ∧
          h.Status.LastUpdate = some p ∧ (σ.lastUpdate p).ScheduledAt = some q ∧
          (ddflareFQDNUpdate w svc.Endpoint token h.Spec.Hostname address).1 =
            .returned uerr ∧
          w.StatusPatch ((σ.written p q w.Now address h.Spec.Hostname uerr).view h)
            ((σ.written p q w.Now address h.Spec.Hostname uerr).view h.DeepCopy) = none) →
        Event.StatusPatch ((σ.written p q w.Now address h.Spec.Hostname uerr).view h)
            ((σ.written p q w.Now address h.Spec.Hostname uerr).view h.DeepCopy) none ∈
          (Reconcile w σ req).trace ∧
        ∀ res e, (Reconcile w σ req).outcome ≠ .returned res (some e))
    ∧ (∀ m o, Event.StatusPatch m o none ∈ (Reconcile w σ req).trace →
        ∀ res e, (Reconcile w σ req).outcome ≠ .returned res (some e)) := by
  have ht := Reconcile_error_causes_trace w σ req
  refine ⟨fun e => Reconcile_error_causes_world w σ req e, ht.1, ht.2.1, ?_, ?_, ht.2.2.2⟩
  · intro msg hget
    rw [Reconcile_of_fetch_error w σ req _ hget]; rfl
  · rintro h svc token address pre p q uerr ⟨hR, hp, hq, hu, hpatch⟩
    have hres := Reconcile_of_resolved w σ req h svc token address pre p q uerr hR hp hq hu
    refine ⟨?_, hres.2.2.2 hpatch⟩
    rw [hres.2.1, hpatch]; simp

/-- C7 (early exits have no side effects).  When the pass made a fetch that
returned not-found, a secret read that failed, a secret read whose secret has
no `authToken` key, or a public IP detection that failed, then none of its
calls is a provider adapter call or a status patch, the heap (hence the
observed status) is the one the pass started from, and the pass returns the
empty `ctrl.Result`; for a not-found fetch that fetch is the only call made
and the returned error is nil. -/
theorem Reconcile_early_exit_frame (w : World) (σ : Heap) (req : NamespacedName)
    (hexit : (∃ msg, Event.GetHostname req (.error (.notFound msg)) ∈ (Reconcile w σ req).trace) ∨
      (∃ key e, Event.GetSecret key (.error e) ∈ (Reconcile w σ req).trace) ∨
      (∃ key secret, Event.GetSecret key (.ok secret) ∈ (Reconcile w σ req).trace ∧
        secret.Data.lookup "authToken" = none) ∨
      (∃ e, Event.GetPublicIP (.error e) ∈ (Reconcile w σ req).trace)) :
    (∀ e ∈ (Reconcile w σ req).trace, e.isProvider = false ∧ e.isStatusPatch = false) ∧
    (Reconcile w σ req).heap = σ ∧
    (∃ err, (Reconcile w σ req).outcome = .returned {} err) ∧
    (∀ msg, Event.GetHostname req (.error (.notFound msg)) ∈ (Reconcile w σ req).trace →
      (Reconcile w σ req).trace = [Event.GetHostname req (.error (.notFound msg))] ∧
      (Reconcile w σ req).outcome = .returned {} none) := by
  have hnp := not_mem_ddflareFQDNUpdate w
  rcases Reconcile_cases w σ req with
    ⟨err, hget, h⟩ | ⟨h0, hget, -, h⟩ | ⟨h0, svc, ref, err, hget, hsvc, href, hsec, h⟩ |
    ⟨h0, svc, ref, secret, hget, hsvc, href, hsec, htok, h⟩ |
    ⟨h0, svc, ref, secret, token, err, hget, hsvc, href, hsec, htok, ha, hip, h⟩ |
    ⟨h0, svc, token, address, pre, hR, -, h⟩ |
    ⟨h0, svc, token, address, pre, p, q, hR, hp, hq, hu, h⟩ |
    ⟨h0, svc, token, address, pre, p, q, uerr, hR, hp, hq, hu, hheap, perr, hperr, htr, hout⟩
  · rw [h] at hexit ⊢
    cases err <;> simp [IgnoreNotFound, Event.isProvider, Event.isStatusPatch] at hexit ⊢
  · rw [h] at hexit; simp at hexit
  · rw [h]; simp [Event.isProvider, Event.isStatusPatch]
  · rw [h]; simp [Event.isProvider, Event.isStatusPatch]
  · rw [h]; simp [Event.isProvider, Event.isStatusPatch]
  · exfalso
    obtain ⟨-, -, ref, secret, -, -, htok, ⟨ha, -, rfl⟩ | ⟨ha, -, rfl⟩⟩ := hR <;>
      rw [h] at hexit <;> simp [-List.lookup_eq_none_iff] at hexit <;>
      obtain ⟨k, s, ⟨-, rfl⟩, hs⟩ := hexit <;> rw [htok] at hs <;> cases hs
  · exfalso
    obtain ⟨-, -, ref, secret, -, -, htok, ⟨ha, -, rfl⟩ | ⟨ha, -, rfl⟩⟩ := hR <;>
      rw [h] at hexit <;>
      simp [hnp, Event.isProvider, -List.lookup_eq_none_iff] at hexit <;>
      obtain ⟨k, s, ⟨-, rfl⟩, hs⟩ := hexit <;> rw [htok] at hs <;> cases hs
  · exfalso
    obtain ⟨-, -, ref, secret, -, -, htok, ⟨ha, -, rfl⟩ | ⟨ha, -, rfl⟩⟩ := hR <;>
      rw [htr] at hexit <;>
      simp [hnp, Event.isProvider, -List.lookup_eq_none_iff] at hexit <;>
      obtain ⟨k, s, ⟨-, rfl⟩, hs⟩ := hexit <;> rw [htok] at hs <;> cases hs

/-- C2, amended (scheduling law for positive intervals).  For every `int32`
value `N > 0` of `Spec.CheckIntervalMinutes` and every world (so every
provider outcome), a pass whose status patch succeeds returns no error and
the requeue delay `N * 60 * 10^9` wrapped to `int64`; when `N ≤ 153722867`
the product does not wrap, so the delay is exactly `N` minutes and
positive. -/
theorem Reconcile_requeue_interval (w : World) (σ : Heap) (req : NamespacedName)
    (h : Hostname) (N : Int)
    (hget : w.GetHostname req = .ok h) (hN : h.Spec.CheckIntervalMinutes = some N)
    (hpos : 0 < N) (hmax : N ≤ 2147483647)
    (hpatch : ∃ m o, Event.StatusPatch m o none ∈ (Reconcile w σ req).trace) :
    (Reconcile w σ req).outcome =
      .returned { Requeue := false, RequeueAfter := wrapInt64 (N * (60 * 10 ^ 9)) } none ∧
    (N ≤ 153722867 →
      wrapInt64 (N * (60 * 10 ^ 9)) = N * (60 * 10 ^ 9) ∧ 0 < wrapInt64 (N * (60 * 10 ^ 9))) := by
  have hnp := not_mem_ddflareFQDNUpdate w
  constructor
  · rcases Reconcile_cases w σ req with
      ⟨err, hget', h'⟩ | ⟨h0, hget', -, h'⟩ | ⟨h0, svc, ref, err, hget', hsvc, href, hsec, h'⟩ |
      ⟨h0, svc, ref, secret, hget', hsvc, href, hsec, htok, h'⟩ |
      ⟨h0, svc, ref, secret, token, err, hget', hsvc, href, hsec, htok, ha, hip, h'⟩ |
      ⟨h0, svc, token, address, pre, hR, -, h'⟩ |
      ⟨h0, svc, token, address, pre, p, q, hR, hp, hq, hu, h'⟩ |
      ⟨h0, svc, token, address, pre, p, q, uerr, hR, hp, hq, hu, hheap, perr, hperr, htr,
        hout⟩
    · rw [h'] at hpatch; simp at hpatch
    · rw [h'] at hpatch; simp at hpatch
    · rw [h'] at hpatch; simp at hpatch
    · rw [h'] at hpatch; simp at hpatch
    · rw [h'] at hpatch; simp at hpatch
    · exfalso
      obtain ⟨-, -, ref, secret, -, -, htok, ⟨ha, -, rfl⟩ | ⟨ha, -, rfl⟩⟩ := hR <;>
        rw [h'] at hpatch <;> simp at hpatch
    · exfalso
      obtain ⟨-, -, ref, secret, -, -, htok, ⟨ha, -, rfl⟩ | ⟨ha, -, rfl⟩⟩ := hR <;>
        rw [h'] at hpatch <;> simp [hnp, Event.isProvider] at hpatch
    · have hh : h0 = h := by
        have := hR.1; rw [hget] at this; cases this; rfl
      subst hh
      have hperr' : perr = none := by
        obtain ⟨-, -, ref, secret, -, -, htok, ⟨ha, -, rfl⟩ | ⟨ha, -, rfl⟩⟩ := hR <;>
          rw [htr] at hpatch <;> simp [hnp, Event.isProvider] at hpatch <;>
          exact hpatch.symm
      rcases hout with ⟨e, he, ho⟩ | ⟨he, hc, ho⟩ | ⟨he, hc, ho⟩ | ⟨he, n, hc, hn, ho⟩
      · rw [hperr'] at he; cases he
      · rw [hN] at hc; cases hc
      · rw [hN] at hc; cases hc; omega
      · rw [hN] at hc; cases hc
        rw [ho]; simp [Minute]
  · intro hsmall
    have h1 : 0 ≤ N * (60 * 10 ^ 9) + 2 ^ 63 := by omega
    have h2 : N * (60 * 10 ^ 9) + 2 ^ 63 < 2 ^ 64 := by omega
    have h3 : wrapInt64 (N * (60 * 10 ^ 9)) = N * (60 * 10 ^ 9) := by
      unfold wrapInt64
      rw [Int.emod_eq_of_lt h1 h2]
      omega
    rw [h3]
    exact ⟨rfl, by omega⟩

/-! ## Behaviour at concrete inputs -/

/-- The copy made by `DeepCopy` is the receiver itself, field for field: the
pointer `Status.LastUpdate` of the copy is the pointer of the original. -/
theorem Hostname.DeepCopy_eq (h : Hostname) : h.DeepCopy = h := by
  cases h; rfl

/-- What a pass that reaches the status patch has written: the time of the
pass, the resolved address, the hostname of the spec, and a `Failed` flag that
is the previous flag or-ed with the failure of the provider adapter.  The
snapshot taken by `DeepCopy` shows the same content, so both arguments of the
status patch are equal. -/
theorem Reconcile_written_status (w : World) (σ : Heap) (req : NamespacedName)
    (hpatch : ∃ m o perr, Event.StatusPatch m o perr ∈ (Reconcile w σ req).trace) :
    ∃ h svc token address pre p uerr,
      Resolved w req h svc token address pre ∧ h.Status.LastUpdate = some p ∧
      (ddflareFQDNUpdate w svc.Endpoint token h.Spec.Hostname address).1 = .returned uerr ∧
      (Reconcile w σ req).heap.view h = some
        { ScheduledAt := some w.Now
          Failed := (σ.lastUpdate p).Failed || uerr.isSome
          Hostname := h.Spec.Hostname
          Address := address } ∧
      (Reconcile w σ req).heap.view h.DeepCopy = (Reconcile w σ req).heap.view h ∧
      ∃ perr, (Reconcile w σ req).trace =
        pre ++ (ddflareFQDNUpdate w svc.Endpoint token h.Spec.Hostname address).2 ++
          [Event.StatusPatch ((Reconcile w σ req).heap.view h)
            ((Reconcile w σ req).heap.view h) perr] := by
  rcases Reconcile_cases w σ req with
    ⟨err, hget', h'⟩ | ⟨h0, hget', -, h'⟩ | ⟨h0, svc, ref, err, hget', hsvc, href, hsec, h'⟩ |
    ⟨h0, svc, ref, secret, hget', hsvc, href, hsec, htok, h'⟩ |
    ⟨h0, svc, ref, secret, token, err, hget', hsvc, href, hsec, htok, ha, hip, h'⟩ |
    ⟨h0, svc, token, address, pre, hR, -, h'⟩ |
    ⟨h0, svc, token, address, pre, p, q, hR, hp, hq, hu, h'⟩ |
    ⟨h0, svc, token, address, pre, p, q, uerr, hR, hp, hq, hu, hheap, perr, hperr, htr, hout⟩
  · rw [h'] at hpatch; simp at hpatch
  · rw [h'] at hpatch; simp at hpatch
  · rw [h'] at hpatch; simp at hpatch
  · rw [h'] at hpatch; simp at hpatch
  · rw [h'] at hpatch; simp at hpatch
  · exfalso
    obtain ⟨-, -, ref, secret, -, -, htok, ⟨ha, -, rfl⟩ | ⟨ha, -, rfl⟩⟩ := hR <;>
      rw [h'] at hpatch <;> simp at hpatch
  · exfalso
    have hnp := not_mem_ddflareFQDNUpdate w
    obtain ⟨-, -, ref, secret, -, -, htok, ⟨ha, -, rfl⟩ | ⟨ha, -, rfl⟩⟩ := hR <;>
      rw [h'] at hpatch <;> simp [hnp, Event.isProvider] at hpatch
  · refine ⟨h0, svc, token, address, pre, p, uerr, hR, hp, hu, ?_, ?_, perr, ?_⟩
    · rw [hheap]
      cases uerr <;>
        simp [Heap.view, hp, Heap.setTime, Heap.setAddress, Heap.setHostname, Heap.setFailed, hq]
    · rw [Hostname.DeepCopy_eq]
    · rw [htr, Hostname.DeepCopy_eq]


/-- C1, evaluated where the code departs from it.  The previous pass left
`Failed = true`; in this pass the provider adapter returns nil (the `Update`
call succeeds) and the status patch is reached; the object handed to the
patch, and the heap after the pass, still have `Failed = true`. -/
theorem Reconcile_failed_flag_stale :
    exampleHeap.view exampleHostname =
      some ⟨some 7, true, "old.example.com", "198.51.100.1"⟩ ∧
    (ddflareFQDNUpdate exampleWorld "Cloudflare" "s3cret" "home.example.com" "203.0.113.7").1 =
      .returned none ∧
    Event.Update ⟨.Cloudflare, none⟩ "home.example.com" "203.0.113.7" none ∈
      (Reconcile exampleWorld exampleHeap exampleRequest).trace ∧
    Event.StatusPatch (some ⟨some 1000, true, "home.example.com", "203.0.113.7"⟩)
        (some ⟨some 1000, true, "home.example.com", "203.0.113.7"⟩) none ∈
      (Reconcile exampleWorld exampleHeap exampleRequest).trace ∧
    (Reconcile exampleWorld exampleHeap exampleRequest).heap.view exampleHostname =
      some ⟨some 1000, true, "home.example.com", "203.0.113.7"⟩ ∧
    (Reconcile exampleWorld exampleHeap exampleRequest).outcome =
      .returned { RequeueAfter := 300000000000 } none := by
  decide

/-- C2, counterexample.  With `Spec.CheckIntervalMinutes = 153722868`, a
positive `int32`, and a successful status patch, the returned delay is the
wrapped product `-9223371993709551616`, which is not positive. -/
theorem Reconcile_requeue_overflow :
    (worldServing hostnameWithHugeInterval).GetHostname exampleRequest =
      .ok hostnameWithHugeInterval ∧
    hostnameWithHugeInterval.Spec.CheckIntervalMinutes = some 153722868 ∧
    (0 : Int) < 153722868 ∧ (153722868 : Int) ≤ 2147483647 ∧
    (∃ m o, Event.StatusPatch m o none ∈
      (Reconcile (worldServing hostnameWithHugeInterval) exampleHeap exampleRequest).trace) ∧
    (Reconcile (worldServing hostnameWithHugeInterval) exampleHeap exampleRequest).outcome =
      .returned { RequeueAfter := -9223371993709551616 } none ∧
    wrapInt64 (153722868 * (60 * 10 ^ 9)) = -9223371993709551616 ∧
    ¬ (0 < wrapInt64 (153722868 * (60 * 10 ^ 9))) := by
  refine ⟨rfl, rfl, by decide, by decide,
    ⟨some ⟨some 1000, true, "home.example.com", "203.0.113.7"⟩,
      some ⟨some 1000, true, "home.example.com", "203.0.113.7"⟩, by decide⟩,
    by decide, by decide, by decide⟩

/-- The scheduling law at an interval of 5 minutes: the hypotheses hold and
the delay is 5 minutes. -/
theorem Reconcile_requeue_interval_witness :
    exampleWorld.GetHostname exampleRequest = .ok exampleHostname ∧
    exampleHostname.Spec.CheckIntervalMinutes = some 5 ∧
    (0 : Int) < 5 ∧ (5 : Int) ≤ 2147483647 ∧
    (∃ m o, Event.StatusPatch m o none ∈
      (Reconcile exampleWorld exampleHeap exampleRequest).trace) ∧
    (Reconcile exampleWorld exampleHeap exampleRequest).outcome =
      .returned { Requeue := false, RequeueAfter := wrapInt64 (5 * (60 * 10 ^ 9)) } none ∧
    ((5 : Int) ≤ 153722867 →
      wrapInt64 (5 * (60 * 10 ^ 9)) = 5 * (60 * 10 ^ 9) ∧ 0 < wrapInt64 (5 * (60 * 10 ^ 9))) :=
  have hp : ∃ m o, Event.StatusPatch m o none ∈
      (Reconcile exampleWorld exampleHeap exampleRequest).trace :=
    ⟨some ⟨some 1000, true, "home.example.com", "203.0.113.7"⟩,
      some ⟨some 1000, true, "home.example.com", "203.0.113.7"⟩, by decide⟩
  ⟨rfl, rfl, by decide, by decide, hp,
    Reconcile_requeue_interval exampleWorld exampleHeap exampleRequest exampleHostname 5
      rfl rfl (by decide) (by decide) hp⟩

/-- C3, evaluated where the code departs from it.  With
`Spec.CheckIntervalMinutes` nil the status patch is made and succeeds, and the
pass then dereferences the nil pointer instead of returning. -/
theorem Reconcile_nil_interval_faults :
    hostnameWithoutInterval.Spec.CheckIntervalMinutes = none ∧
    Event.StatusPatch (some ⟨some 1000, true, "home.example.com", "203.0.113.7"⟩)
        (some ⟨some 1000, true, "home.example.com", "203.0.113.7"⟩) none ∈
      (Reconcile (worldServing hostnameWithoutInterval) exampleHeap exampleRequest).trace ∧
    (Reconcile (worldServing hostnameWithoutInterval) exampleHeap exampleRequest).outcome =
      .fault := by
  decide

/-- C6, evaluated where the code departs from it.  On a brand-new resource
(no `Status.LastUpdate`) with an explicit address, the resource is found and
the secret and its token are read, then the pass dereferences the nil
`LastUpdate`: it ends in a fault and the status holds no `lastUpdate`, so
neither the hostname nor the address is recorded. -/
theorem Reconcile_new_resource_records_nothing :
    newHostnameWithAddress.Status.LastUpdate = none ∧
    newHostnameWithAddress.Spec.Hostname = "home.example.com" ∧
    newHostnameWithAddress.Spec.Address = "192.0.2.10" ∧
    (Reconcile (worldServing newHostnameWithAddress) exampleHeap exampleRequest).trace =
      [Event.GetHostname exampleRequest (.ok newHostnameWithAddress),
        Event.GetSecret ⟨"default", "ddns-auth"⟩ (.ok { Data := [("authToken", "s3cret")] })] ∧
    (Reconcile (worldServing newHostnameWithAddress) exampleHeap exampleRequest).outcome =
      .fault ∧
    (Reconcile (worldServing newHostnameWithAddress) exampleHeap exampleRequest).heap.view
      newHostnameWithAddress = none := by
  decide

/-- C9, evaluated where the code departs from it.  The copy made by
`DeepCopy` keeps the pointer `Status.LastUpdate` of the original; the snapshot
of the example resource shows the old record before the pass and the newly
written record after it, and the status patch receives the same content as
snapshot and as modified object. -/
theorem DeepCopy_shares_lastUpdate :
    (∀ h : Hostname, h.DeepCopy.Status.LastUpdate = h.Status.LastUpdate) ∧
    exampleHeap.view exampleHostname.DeepCopy =
      some ⟨some 7, true, "old.example.com", "198.51.100.1"⟩ ∧
    (Reconcile worldWithFailingUpdate exampleHeap exampleRequest).heap.view
        exampleHostname.DeepCopy =
      some ⟨some 1000, true, "home.example.com", "203.0.113.7"⟩ ∧
    Event.StatusPatch (some ⟨some 1000, true, "home.example.com", "203.0.113.7"⟩)
        (some ⟨some 1000, true, "home.example.com", "203.0.113.7"⟩) none ∈
      (Reconcile worldWithFailingUpdate exampleHeap exampleRequest).trace := by
  refine ⟨fun h => rfl, by decide, by decide, by decide⟩

/-- C10, evaluated where the code departs from it.  With `Status.LastUpdate`
nil, and likewise with `LastUpdate.ScheduledAt` nil, a pass that resolved
credentials and address ends in a nil dereference; it makes no provider call
and no status patch. -/
theorem Reconcile_first_run_faults :
    newHostname.Status.LastUpdate = none ∧
    (Reconcile (worldServing newHostname) exampleHeap exampleRequest).outcome = .fault ∧
    (∀ e ∈ (Reconcile (worldServing newHostname) exampleHeap exampleRequest).trace,
      e.isStatusPatch = false ∧ e.isProvider = false) ∧
    (unscheduledHeap.lastUpdate 0).ScheduledAt = none ∧
    (Reconcile exampleWorld unscheduledHeap exampleRequest).outcome = .fault ∧
    (∀ e ∈ (Reconcile exampleWorld unscheduledHeap exampleRequest).trace,
      e.isStatusPatch = false ∧ e.isProvider = false) := by
  decide

/-- The frame property at a pass whose secret read fails. -/
theorem Reconcile_early_exit_frame_witness :
    (∃ key e, Event.GetSecret key (.error e) ∈
      (Reconcile worldWithoutSecret exampleHeap exampleRequest).trace) ∧
    (∀ e ∈ (Reconcile worldWithoutSecret exampleHeap exampleRequest).trace,
      e.isProvider = false ∧ e.isStatusPatch = false) ∧
    (Reconcile worldWithoutSecret exampleHeap exampleRequest).heap = exampleHeap ∧
    (∃ err, (Reconcile worldWithoutSecret exampleHeap exampleRequest).outcome =
      .returned {} err) :=
  have hx : ∃ key e, Event.GetSecret key (.error e) ∈
      (Reconcile worldWithoutSecret exampleHeap exampleRequest).trace :=
    ⟨⟨"default", "ddns-auth"⟩, .notFound "secret ddns-auth not found", by decide⟩
  have hthm := Reconcile_early_exit_frame worldWithoutSecret exampleHeap exampleRequest
    (Or.inr (Or.inl hx))
  ⟨hx, hthm.1, hthm.2.1, hthm.2.2.1⟩

/-- The error-iff at two failing worlds: a fetch that fails with an error other
than not-found, and a status patch that is rejected, each make `Reconcile`
return that error. -/
theorem Reconcile_error_iff_witness :
    (∃ res, (Reconcile worldWithFailingFetch exampleHeap exampleRequest).outcome =
      .returned res (some (.other "connection refused"))) ∧
    (∃ res, (Reconcile worldWithFailingPatch exampleHeap exampleRequest).outcome =
      .returned res (some (.other "conflict"))) :=
  ⟨((Reconcile_error_iff worldWithFailingFetch exampleHeap exampleRequest).1 _).mpr
      (Or.inl ⟨_, rfl, rfl⟩),
    ((Reconcile_error_iff worldWithFailingPatch exampleHeap exampleRequest).1 _).mpr
      (Or.inr (Or.inr (Or.inr (Or.inr
        ⟨exampleHostname, { AuthSecretRef := some ⟨"ddns-auth", "default"⟩, Endpoint := "Cloudflare" },
          "s3cret", "203.0.113.7", _, 0, 0, none,
          ⟨rfl, rfl, _, _, rfl, rfl, by decide, Or.inr ⟨rfl, rfl, rfl⟩⟩,
          rfl, rfl, by decide, rfl⟩))))⟩

end DDKube
